import Mathlib

/-!
Verification development for the barser repository (wowczarek/barser).

The definitions below are a shallow embedding of the C sources:
  - `src/barser_defaults.h` : character class table, escape code table, constants;
  - `src/xxh.c`             : the 32-bit string hash (declared as `xxHash32` by the
                              missing `xxh.h`; `src/xxh.c` spells the definition `xxHash`);
  - `src/itoa.c`            : `u32toa` decimal rendering;
  - `src/unnamed/part_009`  : the chained path index (`rbt_index.c`);
  - `src/barser.c`          : node store, parser, scanner, queries (the current
                              version of the file, lines ~1390..4228).

Bytes are modelled as `Nat` (0..255); C strings as `List Nat` without the
terminating NUL.  All machine arithmetic is `Nat` with explicit reduction
`% 2^32` where the C uses `uint32_t`.  Every loop of the C is a fuel-indexed
recursion; a function returns `none` when the fuel runs out, which models a
C execution that does not terminate (or crashes) instead of producing a value.
-/

set_option linter.unusedVariables false
set_option maxRecDepth 100000

namespace Barser

/-! ## 32-bit arithmetic and the hash (src/xxh.c) -/

/-- Truncation to 32 bits: C `uint32_t` overflow semantics. -/
def u32 (n : Nat) : Nat := n % 4294967296

/-- `rol32(var, pos) = (var << pos) | (var >> (32 - pos))` on `uint32_t` (xxh.c).
Only called with `0 < r < 32`. -/
def rol32 (x r : Nat) : Nat := u32 (x <<< r) ||| (x >>> (32 - r))

def XXH32_P1 : Nat := 0x9e3779b1
def XXH32_P2 : Nat := 0x85ebca77
def XXH32_P3 : Nat := 0xc2b2ae3d
def XXH32_P4 : Nat := 0x27d4eb2f
def XXH32_P5 : Nat := 0x165667b1

/-- Root node hash constant `BS_ROOT_HASH` (barser.c). -/
def BS_ROOT_HASH : Nat := 0xace6cabd

/-- `BS_MIX_HASH(a, b, len) = ((a ^ rol32(b, 31)))` (barser.c).  The macro
ignores its `len` argument, so the model takes only two arguments. -/
def bsMixHash (a b : Nat) : Nat := a ^^^ rol32 b 31

/-- Byte of `mem` at index `i`, 0 when past the end.  The C buffers hashed by
`xxHash32` always carry a NUL terminator at index `len`, which the model
represents by appending a 0 byte. -/
def byteAt (mem : List Nat) (i : Nat) : Nat := (mem.get? i).getD 0

/-- Little-endian 32-bit load `*(uint32_t*)marker` (x86 target). -/
def read32LE (mem : List Nat) (i : Nat) : Nat :=
  byteAt mem i + 256 * byteAt mem (i+1) + 65536 * byteAt mem (i+2) +
    16777216 * byteAt mem (i+3)

/-- One accumulator update of the 16-byte stripe loop of xxh.c. -/
def xxhRound (acc w : Nat) : Nat :=
  u32 (rol32 (u32 (acc + w * XXH32_P2)) 13 * XXH32_P1)

/-- The `len >= 16` do-while stripe loop of xxh.c: processes one 16-byte stripe,
then continues while `marker <= lim`, i.e. while `idx + 16 <= len`. -/
def xxhStripes (fuel : Nat) (mem : List Nat) (len idx a0 a1 a2 a3 : Nat) :
    Nat × Nat × Nat × Nat × Nat :=
  match fuel with
  | 0 => (idx, a0, a1, a2, a3)
  | f + 1 =>
    let b0 := xxhRound a0 (read32LE mem idx)
    let b1 := xxhRound a1 (read32LE mem (idx+4))
    let b2 := xxhRound a2 (read32LE mem (idx+8))
    let b3 := xxhRound a3 (read32LE mem (idx+12))
    if idx + 32 ≤ len then xxhStripes f mem len (idx + 16) b0 b1 b2 b3
    else (idx + 16, b0, b1, b2, b3)

/-- The 4-byte tail loop of xxh.c: runs while `marker < end - 4`,
i.e. while `idx + 4 < len`. -/
def xxhTail4 (fuel : Nat) (mem : List Nat) (len idx h : Nat) : Nat × Nat :=
  match fuel with
  | 0 => (idx, h)
  | f + 1 =>
    if idx + 4 < len then
      xxhTail4 f mem len (idx + 4)
        (u32 (rol32 (u32 (h + read32LE mem idx * XXH32_P3)) 17 * XXH32_P4))
    else (idx, h)

/-- The byte tail loop of xxh.c: runs while `marker <= end`, i.e. while
`idx <= len` — it therefore consumes the byte at index `len`, which for the
NUL-terminated strings barser hashes is the terminating NUL. -/
def xxhTail1 (fuel : Nat) (mem : List Nat) (len idx h : Nat) : Nat :=
  match fuel with
  | 0 => h
  | f + 1 =>
    if idx ≤ len then
      xxhTail1 f mem len (idx + 1)
        (u32 (rol32 (u32 (h + byteAt mem idx * XXH32_P5)) 11 * XXH32_P1))
    else h

/-- Final avalanche of xxh.c. -/
def xxhAvalanche (h0 : Nat) : Nat :=
  let h1 := h0 ^^^ (h0 >>> 15)
  let h2 := u32 (h1 * XXH32_P2)
  let h3 := h2 ^^^ (h2 >>> 13)
  let h4 := u32 (h3 * XXH32_P3)
  h4 ^^^ (h4 >>> 16)

/-- `xxHash32(name, len)` of src/xxh.c, where `name` holds `len` bytes followed
by a NUL terminator (every call site in barser.c passes a NUL-terminated
string together with its length).  The model takes the byte list without the
NUL and appends it, exactly reproducing the read of the byte at `end`. -/
def xxHash32 (name : List Nat) : Nat :=
  let len := name.length
  let mem := name ++ [0]
  let start :=
    if 16 ≤ len then
      let r := xxhStripes (len + 16) mem len 0
        (u32 (XXH32_P1 + XXH32_P2)) XXH32_P2 0 (u32 (4294967296 - XXH32_P1))
      match r with
      | (idx, a0, a1, a2, a3) =>
        (idx, u32 (rol32 a0 1 + rol32 a1 7 + rol32 a2 12 + rol32 a3 18))
    else (0, XXH32_P5)
  match start with
  | (idx0, h0) =>
    let h1 := u32 (h0 + len)
    match xxhTail4 (len + 4) mem len idx0 h1 with
    | (idx2, h2) => xxhAvalanche (xxhTail1 (len + 2) mem len idx2 h2)

/-! ## Character classes and escape codes (src/barser_defaults.h) -/

def BF_TOK : Nat := 1
def BF_EXT : Nat := 2
def BF_CTL : Nat := 4
def BF_SPC : Nat := 8
def BF_NLN : Nat := 16
def BF_ILL : Nat := 32
def BF_ESC : Nat := 64
def BF_ESS : Nat := 128

/-- `BF_WSP` is referenced by barser.c (in `unescapeToken` and the multi-line
string continuation) but this snapshot's barser_defaults.h names the
whitespace class `BF_SPC`; the missing macro is the whitespace class. -/
def BF_WSP : Nat := BF_SPC

/-- The 256-entry `chflags` table of barser_defaults.h, transcribed entry by
entry (libraries of equal consecutive entries are folded into range tests). -/
def chflags (c : Nat) : Nat :=
  if c = 0 then BF_CTL                       -- NUL
  else if c = 8 then BF_ILL ||| BF_ESC       -- BS
  else if c = 9 then BF_SPC ||| BF_ESC       -- TAB
  else if c = 10 then BF_NLN ||| BF_ESC      -- LF
  else if c = 12 then BF_ILL ||| BF_ESC      -- FF
  else if c = 13 then BF_NLN ||| BF_ESC      -- CR
  else if c < 32 then BF_ILL                 -- other control bytes
  else if c = 32 then BF_SPC                 -- SPC
  else if c = 33 then BF_ILL                 -- !
  else if c = 34 then BF_CTL ||| BF_ESC ||| BF_ESS  -- double quote
  else if c = 35 then BF_CTL                 -- #
  else if c < 39 then BF_ILL                 -- $ % &
  else if c = 39 then BF_CTL ||| BF_ESC ||| BF_ESS  -- single quote
  else if c < 42 then BF_ILL                 -- ( )
  else if c < 44 then BF_TOK                 -- * +
  else if c = 44 then BF_CTL                 -- ,
  else if c < 48 then BF_TOK                 -- - . /
  else if c < 58 then BF_TOK                 -- 0..9
  else if c = 58 then BF_SPC ||| BF_EXT      -- :
  else if c = 59 then BF_CTL                 -- ;
  else if c = 60 then BF_TOK                 -- <
  else if c = 61 then BF_SPC                 -- =
  else if c < 91 then BF_TOK                 -- > ? @ A..Z
  else if c = 91 then BF_CTL ||| BF_ESC ||| BF_ESS  -- [
  else if c = 92 then BF_ESS ||| BF_ESC      -- backslash
  else if c = 93 then BF_CTL ||| BF_ESC ||| BF_ESS  -- ]
  else if c < 96 then BF_TOK                 -- ^ _
  else if c = 96 then BF_ILL                 -- backquote
  else if c = 98 ∨ c = 102 ∨ c = 110 ∨ c = 114 ∨ c = 116 then BF_TOK ||| BF_ESS  -- b f n r t
  else if c < 123 then BF_TOK                -- other a..z
  else if c = 123 then BF_CTL                -- {
  else if c = 124 then BF_SPC                -- |
  else if c = 125 then BF_CTL                -- }
  else if c = 126 then BF_TOK                -- ~
  else BF_ILL                                -- DEL and 128..255

/-- The `esccodes` table of barser_defaults.h (escape byte to control byte and
back); entries absent from the designated initializer are 0. -/
def esccodes (c : Nat) : Nat :=
  if c = 8 then 98        -- BS  -> b
  else if c = 9 then 116  -- TAB -> t
  else if c = 10 then 110 -- LF  -> n
  else if c = 12 then 102 -- FF  -> f
  else if c = 13 then 114 -- CR  -> r
  else if c = 98 then 8   -- b -> BS
  else if c = 116 then 9  -- t -> TAB
  else if c = 110 then 10 -- n -> LF
  else if c = 102 then 12 -- f -> FF
  else if c = 114 then 13 -- r -> CR
  else if c = 92 then 92  -- backslash
  else if c = 34 then 34  -- double quote
  else if c = 39 then 39  -- single quote
  else if c = 91 then 91  -- [
  else if c = 93 then 93  -- ]
  else 0

/-- `(unsigned char)` cast of a C `int` character value (`chflags[(unsigned char)c]`). -/
def ucast (c : Int) : Nat := (c % 256).toNat

/-- `chclass(c, cl)` membership test for an `int` character. -/
def chclass (c : Int) (cl : Nat) : Bool := chflags (ucast c) &&& cl ≠ 0

/-- Class membership for a plain byte. -/
def bclass (b : Nat) (cl : Nat) : Bool := chflags b &&& cl ≠ 0

/-! ## Small string helpers -/

/-- C `strlen` over a byte list: length up to the first NUL (the model's lists
normally carry no NUL, making this the list length). -/
def cstrlen : List Nat → Nat
  | [] => 0
  | b :: r => if b = 0 then 0 else cstrlen r + 1

/-- C `strncmp(a, b, k) == 0`: the first `k` bytes agree, where a list end is
the NUL terminator and comparison stops at the first NUL. -/
def cstrnEq : List Nat → List Nat → Nat → Bool
  | _, _, 0 => true
  | a, b, k + 1 =>
    let ca := a.headD 0
    let cb := b.headD 0
    if ca ≠ cb then false
    else if ca = 0 then true
    else cstrnEq a.tail b.tail k

/-- Decimal digits helper for `u32toa` (src/itoa.c renders base-10 ASCII). -/
def u32toaAux (fuel n : Nat) : List Nat :=
  match fuel with
  | 0 => []
  | f + 1 => if n < 10 then [48 + n] else u32toaAux f (n / 10) ++ [48 + n % 10]

/-- `u32toa` of src/itoa.c: base-10 ASCII rendering of an unsigned integer. -/
def u32toa (n : Nat) : List Nat := u32toaAux (n + 1) n

/-! ## Constants from barser.h (src/unnamed/part_005) -/

def BS_NODE_ROOT : Nat := 0
def BS_NODE_BRANCH : Nat := 1
def BS_NODE_LEAF : Nat := 2
def BS_NODE_ARRAY : Nat := 3
def BS_NODE_INSTANCE : Nat := 4

def BS_PERROR_NONE : Nat := 0
def BS_PERROR_EOF : Nat := 1
def BS_PERROR_UNEXPECTED : Nat := 2
def BS_PERROR_EXP_ID : Nat := 3
def BS_PERROR_UNEXP_ID : Nat := 4
def BS_PERROR_TOKENS : Nat := 5
def BS_PERROR_LEVEL : Nat := 6
def BS_PERROR_BLOCK : Nat := 7
def BS_PERROR_NULL : Nat := 8
def BS_PERROR_QUOTED : Nat := 9
def BS_PERROR : Nat := 10

def BS_NODE_OK : Nat := 0
def BS_NODE_NOT_FOUND : Nat := 1

def BS_NOINDEX : Nat := 1
def BS_READONLY : Nat := 2

def BS_QUOTED_VALUE : Nat := 1
def BS_QUOTED_NAME : Nat := 2
def BS_INDEXED : Nat := 4
def BS_MODIFIED : Nat := 8
def BS_INACTIVE : Nat := 16

def BS_INHERITED_SHIFT : Nat := 4
/-- `BS_INACTIVE | BS_REMOVED | BS_ADDED | BS_GENERATED`. -/
def BS_INHERITED_FLAGS : Nat := 16 ||| 32 ||| 64 ||| 128

def BS_MAX_TOKENS : Nat := 20

/-- Path separator byte, `BS_PATH_SEP` = the slash. -/
def BS_PATH_SEP : Nat := 47
/-- Escape byte, `BS_ESCAPE_CHAR` = the backslash. -/
def BS_ESCAPE_CHAR : Nat := 92
/-- `BS_MODIFIER_CHAR` is referenced by barser.c but not defined in this
snapshot; per the spec a modifier is a first token ending in the colon, so the
missing macro is the colon byte. -/
def BS_MODIFIER_CHAR : Nat := 58

/-! ## Node and dictionary model (barser.h structures) -/

/-- `BsNode`: `nameLen`/`valueLen` are the C's cached byte lengths, which every
code path keeps equal to the lengths of the stored strings, so the model reads
them off the lists.  The doubly-linked child list (`LL_HOLDER`/`LL_MEMBER`)
is the ordered `children` id list; `childCount` is kept as the separate counter
the C maintains.  The `_indexNext` chain pointers live in the dictionary's
index buckets. -/
structure BsNode where
  parent : Option Nat
  name : List Nat
  value : Option (List Nat)
  children : List Nat
  childCount : Nat
  ntype : Nat
  flags : Nat
  hash : Nat
  deriving DecidableEq

/-- `BsDict`: the arena `nodes` gives every allocated node an id (its index);
a freed node becomes `none`.  `index` models the red-black tree of
rbt_index.c as an association list from hash to the collision chain of node
ids (chain head first, threaded through `_indexNext` in the C). -/
structure BsDict where
  nodes : List (Option BsNode)
  root : Nat
  name : List Nat
  flags : Nat
  nodecount : Nat
  index : List (Nat × List Nat)
  deriving DecidableEq

def getNode (d : BsDict) (i : Nat) : Option BsNode := (d.nodes.get? i).getD none

def setNode (d : BsDict) (i : Nat) (n : Option BsNode) : BsDict :=
  { d with nodes := d.nodes.set i n }

/-! ## The path index (src/unnamed/part_009, rbt_index.c) -/

/-- `bsIndexGet`: chain stored at the bucket for `h`, `[]` when absent
(the C returns the chain head pointer or NULL). -/
def bsIndexGet (idx : List (Nat × List Nat)) (h : Nat) : List Nat :=
  match idx.find? (fun p => p.1 == h) with
  | some p => p.2
  | none => []

/-- Replace the chain of the (existing) bucket for `h`. -/
def bucketSet (idx : List (Nat × List Nat)) (h : Nat) (ch : List Nat) :
    List (Nat × List Nat) :=
  match idx with
  | [] => []
  | p :: r => if p.1 = h then (h, ch) :: r else p :: bucketSet r h ch

/-- `bsIndexPut(dict, node)`: `rbInsert` finds or creates the bucket for the
node's hash; an empty bucket takes the node as chain head, otherwise the C
walks `_indexNext` to the tail and appends. -/
def bsIndexPut (idx : List (Nat × List Nat)) (h : Nat) (i : Nat) :
    List (Nat × List Nat) :=
  match idx.find? (fun p => p.1 == h) with
  | some p => bucketSet idx h (p.2 ++ [i])
  | none => idx ++ [(h, [i])]

/-- Remove the first occurrence of `t` (used for the `prev->_indexNext`
unlink). -/
def eraseFirst (t : Nat) : List Nat → List Nat
  | [] => []
  | x :: r => if x = t then r else x :: eraseFirst t r

/-- `bsIndexDelete(index, node)` of src/unnamed/part_009 lines 135..168:
search the bucket for `node->hash`; walk the chain for the node keeping
`prev`; when the node is found at the chain head (`prev == NULL`) the C sets
`inode->value = NULL`, discarding the entire chain; otherwise it unlinks just
that node. -/
def bsIndexDelete (idx : List (Nat × List Nat)) (h : Nat) (i : Nat) :
    List (Nat × List Nat) :=
  match idx.find? (fun p => p.1 == h) with
  | none => idx
  | some p =>
    if i ∈ p.2 then
      match p.2 with
      | [] => idx
      | hd :: _ =>
        if hd = i then bucketSet idx h []
        else bucketSet idx h (eraseFirst i p.2)
    else idx

/-! ## Node creation and deletion (barser.c) -/

/-- Flag inheritance of `_bsCreateNode`: the parent's inheritable flags shifted
into their `*CHLD` positions, or-ed with the parent's already-shifted
inherited flags. -/
def inheritFlags (pf : Nat) : Nat :=
  ((pf &&& BS_INHERITED_FLAGS) <<< BS_INHERITED_SHIFT) |||
    (pf &&& (BS_INHERITED_FLAGS <<< BS_INHERITED_SHIFT))

/-- `_bsCreateNode(dict, parent, type, name, namelen, value, valuelen)`
(barser.c 2007..2120).  `none` models the C's NULL return (onerror path).
An array parent names the child by `u32toa(parent->childCount)`, ignoring the
passed name; otherwise a NULL name is an error and `namelen == 0` means
`strlen(name)`.  The hash mixes the name hash with the parent's hash; the new
node is indexed (which sets `BS_INDEXED`), appended to the parent's child
list, and the counters are bumped.  The `parent == NULL` branch creates the
root and is modelled in `bsCreate`. -/
def bsCreateNodeIn (d : BsDict) (parent : Nat) (ntype : Nat)
    (name : Option (List Nat)) (namelen : Nat) (value : Option (List Nat)) :
    Option (BsDict × Nat) :=
  match getNode d parent with
  | none => none
  | some pn =>
    let iflags := inheritFlags pn.flags
    let nm? : Option (List Nat × Nat) :=
      if pn.ntype = BS_NODE_ARRAY then
        let digits := u32toa pn.childCount
        some (digits, digits.length)
      else
        match name with
        | none => none
        | some nm => some (nm, if namelen = 0 then cstrlen nm else namelen)
    match nm? with
    | none => none
    | some (nm, slen) =>
      let h := bsMixHash (xxHash32 nm) pn.hash
      let indexed := d.flags &&& BS_NOINDEX = 0
      let node : BsNode :=
        { parent := some parent, name := nm, value := value, children := []
          childCount := 0, ntype := ntype
          flags := iflags ||| (if indexed then BS_INDEXED else 0), hash := h }
      let newId := d.nodes.length
      let d := { d with nodes := d.nodes ++ [some node] }
      let d := if indexed then { d with index := bsIndexPut d.index h newId } else d
      let d := setNode d parent
        (some { pn with children := pn.children ++ [newId],
                        childCount := pn.childCount + 1 })
      some ({ d with nodecount := d.nodecount + 1 }, newId)

/-- `bsCreate(name, flags)` (barser.c 2344..2378): a fresh dictionary whose
root node (id 0) carries the empty name and the fixed root hash. -/
def bsCreate (name : List Nat) (flags : Nat) : BsDict :=
  let root : BsNode :=
    { parent := none, name := [], value := none, children := []
      childCount := 0, ntype := BS_NODE_ROOT, flags := 0, hash := BS_ROOT_HASH }
  { nodes := [some root], root := 0, name := name, flags := flags
    nodecount := 1, index := [] }

/-- Public `bsCreateNode(dict, parent, type, name, value)` (barser.c
2129..2174).  A non-NULL value is only allowed on a LEAF.  The C contains a
slip here: it sizes the value copy by `strlen(name)` instead of
`strlen(value)` (`vlen = strlen(name)` at line 2147), so the stored value is
the first `strlen(name)` bytes of `value` (reading past its end when the name
is longer; the model truncates). -/
def bsCreateNode (d : BsDict) (parent : Nat) (ntype : Nat)
    (name : Option (List Nat)) (value : Option (List Nat)) :
    Option (BsDict × Nat) :=
  match getNode d parent with
  | none => none
  | some pn =>
    let vout? : Option (Option (List Nat)) :=
      match value with
      | none => some none
      | some v =>
        if ntype ≠ BS_NODE_LEAF then none
        else
          let vlen := cstrlen (name.getD [])
          some (some (v.take vlen))
    match vout? with
    | none => none
    | some vout =>
      if pn.ntype = BS_NODE_ARRAY then
        bsCreateNodeIn d parent ntype none 0 vout
      else
        let nout := match name with
          | none => []
          | some nm => if cstrlen nm = 0 then [] else nm
        bsCreateNodeIn d parent ntype (some nout) (cstrlen nout) vout

/-- `bsDeleteNode(dict, node)` (barser.c 2314..2341): remove the node from the
index, recursively delete the children (the C loop repeatedly takes the
current first child), then — unless the node is the root (`parent == NULL`) —
unlink it from the parent and free it.  The node counter is decremented in
either case.  `none` models non-termination (fuel exhausted). -/
def bsDeleteNode (fuel : Nat) (d : BsDict) (i : Nat) : Option (BsDict × Nat) :=
  match fuel with
  | 0 => none
  | f + 1 =>
    match getNode d i with
    | none => some (d, BS_NODE_NOT_FOUND)
    | some nd =>
      let d := if d.flags &&& BS_NOINDEX = 0 then
        { d with index := bsIndexDelete d.index nd.hash i } else d
      match nd.children.foldlM (fun d c => (bsDeleteNode f d c).map (·.1)) d with
      | none => none
      | some d =>
        match nd.parent with
        | some p =>
          let d := match getNode d p with
            | some pn =>
              setNode d p (some { pn with
                children := eraseFirst i pn.children,
                childCount := pn.childCount - 1 })
            | none => d
          let d := setNode d i none
          some ({ d with nodecount := d.nodecount - 1 }, BS_NODE_OK)
        | none =>
          some ({ d with nodecount := d.nodecount - 1 }, BS_NODE_OK)

/-! ## Rehash walk, rename, move, copy (barser.c) -/

/-- One run of `bsRehashCallback` (barser.c 2588..2601) on node `i`: for a
non-root node, delete it from the index, recompute
`hash = BS_MIX_HASH(xxHash32(name, nameLen), parent->hash, nameLen)` and
re-insert. -/
def bsRehashStep (d : BsDict) (i : Nat) : BsDict :=
  match getNode d i with
  | none => d
  | some nd =>
    match nd.parent with
    | none => d
    | some p =>
      match getNode d p with
      | none => d
      | some pn =>
        let indexed := d.flags &&& BS_NOINDEX = 0
        let d := if indexed then
          { d with index := bsIndexDelete d.index nd.hash i } else d
        let h := bsMixHash (xxHash32 nd.name) pn.hash
        let d := setNode d i (some { nd with hash := h })
        if indexed then { d with index := bsIndexPut d.index h i } else d

/-- `bsNodeWalk(dict, node, NULL, NULL, bsRehashCallback)`: preorder traversal
running the rehash callback on the node and then on every descendant
(barser.c 2604..2624).  `none` models a traversal that does not terminate
within the fuel (the C recursion would not return on a cyclic structure). -/
def bsRehashWalk (fuel : Nat) (d : BsDict) (i : Nat) : Option BsDict :=
  match fuel with
  | 0 => none
  | f + 1 =>
    let d := bsRehashStep d i
    match getNode d i with
    | none => some d
    | some nd => nd.children.foldlM (fun d c => bsRehashWalk f d c) d

/-- `bsRenameNode(dict, node, newname)` (barser.c 4068..4104).  Array members
cannot be renamed.  The guard the C comments `name unchanged` compares only
the first `min(node->nameLen, strlen(newname))` bytes, so it also fires when
the shorter of the two names is a prefix of the longer.  When the rename
happens and the recomputed hash differs, the subtree is rehash-walked.
The result is the updated dictionary and the C's return value (the node, or
NULL).  `none` models a non-terminating rehash walk. -/
def bsRenameNode (fuel : Nat) (d : BsDict) (i : Nat)
    (newname : Option (List Nat)) : Option (BsDict × Option Nat) :=
  match getNode d i, newname with
  | some nd, some nn =>
    match nd.parent with
    | none => some (d, none)
    | some p =>
      match getNode d p with
      | none => some (d, none)
      | some pn =>
        if pn.ntype = BS_NODE_ARRAY then some (d, none)
        else
          let sl := cstrlen nn
          if cstrnEq nn nd.name (min (cstrlen nd.name) sl) then some (d, some i)
          else
            let d := setNode d i (some { nd with name := nn })
            let newhash := bsMixHash (xxHash32 nn) pn.hash
            if newhash ≠ nd.hash then
              match bsRehashWalk fuel d i with
              | none => none
              | some d => some (d, some i)
            else some (d, some i)
  | _, _ => some (d, none)

/-- `bsMoveNode(dict, node, newparent, newname)` (barser.c 4153..4205).
Same-parent moves degrade to a rename; otherwise the node is unlinked,
appended under the new parent, optionally renamed (same prefix-guard as
rename), and the subtree is rehash-walked when the recomputed hash differs. -/
def bsMoveNode (fuel : Nat) (d : BsDict) (i : Nat) (newparent : Nat)
    (newname : Option (List Nat)) : Option (BsDict × Option Nat) :=
  let sl := cstrlen (newname.getD [])
  match getNode d i, getNode d newparent with
  | some nd, some _ =>
    match nd.parent with
    | none => some (d, none)
    | some oldp =>
      if oldp = newparent then
        match newname with
        | some nn =>
          if ¬ cstrnEq nn nd.name (min (cstrlen nd.name) sl) then
            match bsRenameNode fuel d i newname with
            | none => none
            | some (d, _) => some (d, some i)
          else some (d, some i)
        | none => some (d, some i)
      else
        let d := match getNode d oldp with
          | some opn =>
            setNode d oldp (some { opn with
              children := eraseFirst i opn.children,
              childCount := opn.childCount - 1 })
          | none => d
        let d := match getNode d newparent with
          | some npn =>
            setNode d newparent (some { npn with
              children := npn.children ++ [i],
              childCount := npn.childCount + 1 })
          | none => d
        let d := match getNode d i with
          | some nd2 => setNode d i (some { nd2 with parent := some newparent })
          | none => d
        let d := match getNode d i, newname with
          | some nd2, some nn =>
            if ¬ cstrnEq nn nd2.name (min (cstrlen nd2.name) sl) then
              setNode d i (some { nd2 with name := nn })
            else d
          | _, _ => d
        match getNode d i, getNode d newparent with
        | some nd2, some npn =>
          let newhash := bsMixHash (xxHash32 nd2.name) npn.hash
          if newhash ≠ nd2.hash then
            match bsRehashWalk fuel d i with
            | none => none
            | some d => some (d, some i)
          else some (d, some i)
        | _, _ => some (d, some i)
  | _, _ => some (d, none)

/-- `bsDupCallback` driven by `bsNodeWalk` (barser.c 4111..4125, 2604..2624):
create a copy of the source node under `target` via the public
`bsCreateNode`, overwrite the copy's flags with the source flags, and recurse
into the source children with the copy as the new target.  A failed creation
passes `NULL` feedback down, so the C's recursion then creates nothing. -/
def bsDupWalk (fuel : Nat) (d : BsDict) (src : Nat) (target : Option Nat) :
    Option BsDict :=
  match fuel with
  | 0 => none
  | f + 1 =>
    match getNode d src with
    | none => some d
    | some sn =>
      let created : BsDict × Option Nat :=
        match target with
        | none => (d, none)
        | some t =>
          match bsCreateNode d t sn.ntype (some sn.name) sn.value with
          | none => (d, none)
          | some (d, newId) =>
            match getNode d newId with
            | some cn => (setNode d newId (some { cn with flags := sn.flags }), some newId)
            | none => (d, some newId)
      match created with
      | (d, newTarget) =>
        sn.children.foldlM (fun d c => bsDupWalk f d c newTarget) d

/-- `bsCopyNode(dict, node, newparent, newname)` (barser.c 4128..4150): the C
temporarily points the source node's name at `newname` (when it differs under
the prefix-guard), deep-copies through `bsDupWalk`, restores the name, and
returns the new parent's last child. -/
def bsCopyNode (fuel : Nat) (d : BsDict) (i : Nat) (newparent : Nat)
    (newname : Option (List Nat)) : Option (BsDict × Option Nat) :=
  match getNode d newparent with
  | none => some (d, none)
  | some _ =>
    match getNode d i with
    | none => some (d, none)
    | some nd =>
      let oldname := nd.name
      let tmpname := match newname with
        | some nn =>
          if ¬ cstrnEq nn nd.name (min (cstrlen nd.name) (cstrlen nn)) then nn
          else oldname
        | none => oldname
      let d := setNode d i (some { nd with name := tmpname })
      match bsDupWalk fuel d i (some newparent) with
      | none => none
      | some d =>
        let d := match getNode d i with
          | some nd2 => setNode d i (some { nd2 with name := oldname })
          | none => d
        let last := match getNode d newparent with
          | some npn => npn.children.getLast?
          | none => none
        some (d, last)

/-! ## Scanner state (barser.h `BsState`, barser.c `bsScan`) -/

def BS_NOOP : Nat := 0
def BS_SKIP_WHITESPACE : Nat := 1
def BS_SKIP_NEWLINE : Nat := 2
def BS_GET_TOKEN : Nat := 3
def BS_GET_QUOTED : Nat := 4
def BS_SKIP_COMMENT : Nat := 5
def BS_SKIP_MLCOMMENT : Nat := 6

def BS_NOEVENT : Nat := 0
def BS_GOT_TOKEN : Nat := 1
def BS_GOT_ENDVAL : Nat := 2
def BS_GOT_BLOCK : Nat := 3
def BS_END_BLOCK : Nat := 4
def BS_GOT_ARRAY : Nat := 5
def BS_END_ARRAY : Nat := 6
def BS_GOT_EOF : Nat := 7
def BS_ERROR : Nat := 8

/-- A `BsToken`: for an unquoted token the C records a slice of the buffer,
for a quoted one an owned unescaped buffer; the model materializes the bytes
either way. -/
structure BsTok where
  data : List Nat
  quoted : Bool
  deriving DecidableEq

/-- `BsState` of barser.h.  Buffer positions are indices into `buf`; the
buffer end is `buf.length` (the `len` argument of `bsParse`).  `prev` is the
C's `int prev` (last consumed character).  The token cache holds the accepted
tokens (`tokenCount` of them) plus possibly one freshly scanned token that
the parser has not yet counted. -/
structure BsState where
  buf : List Nat
  pos : Nat
  prev : Int
  linestart : Nat
  slinestart : Nat
  linepos : Nat
  lineno : Nat
  slinepos : Nat
  slineno : Nat
  scanState : Nat
  parseEvent : Nat
  parseError : Nat
  tokenCache : List BsTok
  tokenCount : Nat
  tokenOffset : Nat
  flags : Nat
  deriving DecidableEq

/-- Reading `*current` as a C `int` through a signed `char`: bytes at or past
the end read as `EOF` (the repository's buffer loader plants an `EOF` byte
after the input, and a byte 0xFF reads as -1 through the signed char). -/
def readC (buf : List Nat) (pos : Nat) : Int :=
  match buf.get? pos with
  | some b => if b < 128 then (b : Int) else (b : Int) - 256
  | none => -1

/-- `bsInitState(state, buf, len)` (barser.c 1565..1592). -/
def bsInitState (buf : List Nat) : BsState :=
  { buf := buf, pos := 0, prev := 0, linestart := 0, slinestart := 0
    linepos := 0, lineno := 1, slinepos := 0, slineno := 1
    scanState := BS_SKIP_WHITESPACE, parseEvent := BS_NOEVENT
    parseError := BS_PERROR_NONE, tokenCache := [], tokenCount := 0
    tokenOffset := 0, flags := 0 }

/-- `savestate(st)` macro. -/
def savestate (st : BsState) : BsState :=
  { st with slinestart := st.linestart, slineno := st.lineno,
            slinepos := st.linepos }

/-- `bsForward(state)` (barser.c 1625ff): consume the current character into
`prev`, advance, return the new current character or `EOF`, maintaining the
line counters (a pair of two different newline bytes advances the line
number only once). -/
def bsForward (st : BsState) : BsState × Int :=
  let prev := readC st.buf st.pos
  let st := { st with prev := prev, pos := st.pos + 1 }
  if st.pos = st.buf.length then (st, -1)
  else
    let c := readC st.buf st.pos
    if c = 0 then (st, -1)
    else if chclass c BF_NLN then
      if ¬ chclass prev BF_NLN ∨ c = prev then
        ({ st with linestart := st.pos, lineno := st.lineno + 1, linepos := 0 }, c)
      else (st, c)
    else ({ st with linepos := st.linepos + 1 }, c)

/-- `bsPeek(state)`. -/
def bsPeek (st : BsState) : Int :=
  if st.pos = st.buf.length then -1 else readC st.buf (st.pos + 1)

/-- Set an error event on the state. -/
def scanErr (st : BsState) (e : Nat) : BsState :=
  { st with parseEvent := BS_ERROR, parseError := e }

/-- A whitespace-class skip loop (`while(cclass(...)) c = bsForward(state)`).
`none` throughout the scanner helpers models a C loop that never exits within
the fuel (divergence or an out-of-bounds run). -/
def skipClassWhile (fuel : Nat) (st : BsState) (c : Int) (cl : Nat) :
    Option (BsState × Int) :=
  match fuel with
  | 0 => none
  | f + 1 =>
    if chclass c cl then
      match bsForward st with
      | (st, c) => skipClassWhile f st c cl
    else some (st, c)

/-- The token-collection loop of `BS_GET_TOKEN`
(`while(cclass(BF_TOK | BF_EXT))`). -/
def collectToken (fuel : Nat) (st : BsState) (c : Int) (acc : List Nat) :
    Option (BsState × Int × List Nat) :=
  match fuel with
  | 0 => none
  | f + 1 =>
    if chclass c (BF_TOK ||| BF_EXT) then
      match bsForward st with
      | (st, c2) => collectToken f st c2 (acc ++ [ucast c])
    else some (st, c, acc)

/-- The skip loop of the multi-line string continuation:
`do { savestate(state); c = bsForward(state); } while(cclass(BF_WSP | BF_NLN));`. -/
def mlContSkip (fuel : Nat) (st : BsState) : Option (BsState × Int) :=
  match fuel with
  | 0 => none
  | f + 1 =>
    let st := savestate st
    match bsForward st with
    | (st, c) => if chclass c (BF_WSP ||| BF_NLN) then mlContSkip f st else some (st, c)

/-- The `nextbatch` collection loop of `BS_GET_QUOTED` (barser.c 3020..3092).
`some (st, some bytes)` on success (closing quote processed, the character
after it current); `some (st, none)` when the C records a scan error. -/
def collectQuoted (fuel : Nat) (st : BsState) (c : Int) (qchar : Int)
    (acc : List Nat) : Option (BsState × Option (List Nat)) :=
  match fuel with
  | 0 => none
  | f + 1 =>
    if c ≠ qchar then
      if chclass c BF_NLN then some (scanErr st BS_PERROR_QUOTED, none)
      else if c = (BS_ESCAPE_CHAR : Int) then
        match bsForward st with
        | (st, c2) =>
          if chclass c2 BF_ESS then
            match bsForward st with
            | (st, c3) => collectQuoted f st c3 qchar (acc ++ [esccodes (ucast c2)])
          else if c2 = -1 then some (scanErr st BS_PERROR_EOF, none)
          else
            match bsForward st with
            | (st, c3) => collectQuoted f st c3 qchar (acc ++ [ucast c2])
      else if c = -1 then some (scanErr st BS_PERROR_EOF, none)
      else
        match bsForward st with
        | (st, c2) => collectQuoted f st c2 qchar (acc ++ [ucast c])
    else
      match bsForward st with
      | (st, c2) =>
        if c2 = (BS_ESCAPE_CHAR : Int) then
          match mlContSkip f st with
          | none => none
          | some (st, c3) =>
            if c3 = qchar then
              match bsForward st with
              | (st, c4) => collectQuoted f st c4 qchar acc
            else some (scanErr st BS_PERROR_QUOTED, none)
        else some (st, some acc)

/-- The `BS_SKIP_MLCOMMENT` scan loop (`while(c != '/' && c != EOF)`). -/
def mlCommentSkip (fuel : Nat) (st : BsState) (c : Int) : Option (BsState × Int) :=
  match fuel with
  | 0 => none
  | f + 1 =>
    if c ≠ (47 : Int) ∧ c ≠ -1 then
      match bsForward st with
      | (st, c2) => mlCommentSkip f st c2
    else some (st, c)

/-- The `BS_SKIP_COMMENT` loop (`while(!cclass(BF_NLN))`), which the C runs
with no EOF check: on a buffer ending inside a line comment it reads past the
buffer; the model's reads keep yielding `EOF` (ILL-class, not NLN), so the
fuel runs out (`none`). -/
def commentSkip (fuel : Nat) (st : BsState) (c : Int) : Option (BsState × Int) :=
  match fuel with
  | 0 => none
  | f + 1 =>
    if ¬ chclass c BF_NLN then
      match bsForward st with
      | (st, c2) => commentSkip f st c2
    else some (st, c)

/-! ## The scanner state machine `bsScan` (barser.c 2957..3225)

`scanBodyStep` is one execution of the `switch(state->scanState)`;
`scanCtrlStep` is the control-character check that follows it; the
`goto again` edges and the enclosing do-while loop are the `body`/`ctrl`
recursion knots, tied by `scanStepPair` below (an explicit `Nat.rec` over the
fuel: the resulting terms reduce cheaply, which the concrete evaluations in
the theorems rely on). -/

def scanBodyStep (f : Nat)
    (body ctrl : BsState → Int → Int → Option BsState)
    (st : BsState) (c : Int) (qchar : Int) : Option BsState :=
    if st.scanState = BS_SKIP_WHITESPACE then
      match skipClassWhile f st c (BF_SPC ||| BF_NLN) with
      | none => none
      | some (st, c) =>
        -- multi-line comment opener: '/' followed by '*'
        if c = (47 : Int) ∧ bsPeek st = (42 : Int) then
          let st := savestate st
          match bsForward st with
          | (st, c2) => body { st with scanState := BS_SKIP_MLCOMMENT } c2 qchar
        -- line comment opener: '/' followed by '/'
        else if c = (47 : Int) ∧ bsPeek st = (47 : Int) then
          match bsForward st with
          | (st, c2) => body { st with scanState := BS_SKIP_COMMENT } c2 qchar
        else ctrl { st with scanState := BS_GET_TOKEN } c qchar
    else if st.scanState = BS_GET_TOKEN then
      match collectToken f st c [] with
      | none => none
      | some (st, c, acc) =>
        if acc.length > 0 then
          some { st with tokenCache := st.tokenCache ++ [⟨acc, false⟩],
                         scanState := BS_SKIP_WHITESPACE,
                         parseEvent := BS_GOT_TOKEN }
        else ctrl st c qchar
    else if st.scanState = BS_GET_QUOTED then
      match collectQuoted f st c qchar [] with
      | none => none
      | some (st, none) => some st
      | some (st, some acc) =>
        some { st with tokenCache := st.tokenCache ++ [⟨acc, true⟩],
                       scanState := BS_SKIP_WHITESPACE,
                       parseEvent := BS_GOT_TOKEN }
    else if st.scanState = BS_SKIP_COMMENT then
      match commentSkip f st c with
      | none => none
      | some (st, c) =>
        -- fall-through into BS_SKIP_NEWLINE
        match skipClassWhile f st c BF_NLN with
        | none => none
        | some (st, c) => ctrl { st with scanState := BS_SKIP_WHITESPACE } c qchar
    else if st.scanState = BS_SKIP_NEWLINE then
      match skipClassWhile f st c BF_NLN with
      | none => none
      | some (st, c) => ctrl { st with scanState := BS_SKIP_WHITESPACE } c qchar
    else if st.scanState = BS_SKIP_MLCOMMENT then
      match mlCommentSkip f st c with
      | none => none
      | some (st, c) =>
        if c = (47 : Int) then
          let st := if st.prev = (42 : Int) then
            { st with scanState := BS_SKIP_WHITESPACE } else st
          match bsForward st with
          | (st, c2) => ctrl st c2 qchar
        else some (scanErr st BS_PERROR_EOF)
    else some (scanErr st BS_PERROR)

/-- The control-character check of `bsScan` (barser.c 3134..3220). -/
def scanCtrlStep (f : Nat)
    (body ctrl : BsState → Int → Int → Option BsState)
    (st : BsState) (c : Int) (qchar : Int) : Option BsState :=
    if st.parseEvent ≠ BS_NOEVENT then some st
    -- BS_QUOTE_CHAR '"' / BS_QUOTE1_CHAR single quote
    else if c = (34 : Int) ∨ c = (39 : Int) then
      let st := savestate { st with scanState := BS_GET_QUOTED }
      match bsForward st with
      | (st, c2) => body st c2 c
    -- BS_ENDVAL_CHAR ';' / BS_ENDVAL1_CHAR ','
    else if c = (59 : Int) ∨ c = (44 : Int) then
      let st := { st with scanState := BS_SKIP_WHITESPACE, parseEvent := BS_GOT_ENDVAL }
      some (bsForward st).1
    else if c = (123 : Int) then   -- BS_STARTBLOCK_CHAR
      let st := savestate { st with scanState := BS_SKIP_WHITESPACE, parseEvent := BS_GOT_BLOCK }
      some (bsForward st).1
    else if c = (125 : Int) then   -- BS_ENDBLOCK_CHAR
      let st := { st with scanState := BS_SKIP_WHITESPACE, parseEvent := BS_END_BLOCK }
      some (bsForward st).1
    else if c = (91 : Int) then    -- BS_STARTARRAY_CHAR
      let st := savestate { st with scanState := BS_SKIP_WHITESPACE, parseEvent := BS_GOT_ARRAY }
      some (bsForward st).1
    else if c = (93 : Int) then    -- BS_ENDARRAY_CHAR
      let st := { st with scanState := BS_SKIP_WHITESPACE, parseEvent := BS_END_ARRAY }
      some (bsForward st).1
    else if c = (35 : Int) then    -- BS_COMMENT_CHAR '#'
      match bsForward { st with scanState := BS_SKIP_COMMENT } with
      | (st, c2) => body st c2 qchar
    else if c = 0 ∨ c = -1 then
      some { st with parseEvent := BS_GOT_EOF }
    else if chclass c BF_ILL then
      some (scanErr st BS_PERROR_UNEXPECTED)
    else body st c qchar

/-- The fuel-indexed mutual knot of `scanBodyStep` and `scanCtrlStep`:
component 1 is the state switch, component 2 the control check. -/
def scanStepPair (fuel : Nat) :
    (BsState → Int → Int → Option BsState) × (BsState → Int → Int → Option BsState) :=
  Nat.rec (motive := fun _ => (BsState → Int → Int → Option BsState) × (BsState → Int → Int → Option BsState))
    (fun _ _ _ => none, fun _ _ _ => none)
    (fun f ih => (scanBodyStep f ih.1 ih.2, scanCtrlStep f ih.1 ih.2))
    fuel

/-- The `switch(state->scanState)` dispatch with fuel. -/
def scanBody (fuel : Nat) (st : BsState) (c : Int) (qchar : Int) : Option BsState :=
  (scanStepPair fuel).1 st c qchar

/-- The control-character check with fuel. -/
def scanCtrl (fuel : Nat) (st : BsState) (c : Int) (qchar : Int) : Option BsState :=
  (scanStepPair fuel).2 st c qchar

/-- `bsScan(state)`: run the scanner until it produces an event. -/
def bsScan (fuel : Nat) (st : BsState) : Option BsState :=
  scanBody fuel st (readC st.buf st.pos) 34

/-! ## The parser `bsParse` (barser.c 3234..3657) -/

/-- Token cache slot access.  A slot beyond what was written reads as the
zero-initialized token (the C cache is `memset` to zero in `bsInitState`, so
a virgin out-of-range slot holds a NULL, zero-length token, which
`getTokenData` turns into the empty string). -/
def tokAt (st : BsState) (j : Nat) : BsTok := (st.tokenCache.get? j).getD ⟨[], false⟩

/-- The `td`/`tl`/`tq` macros: cache slot `n + state.tokenOffset`. -/
def tdTok (st : BsState) (n : Nat) : BsTok := tokAt st (n + st.tokenOffset)

/-- `tokenreset()` macro: counters and statement flags back to zero (the model
also drops the cache contents; the C leaves them stale but unreachable). -/
def tokenreset (st : BsState) : BsState :=
  { st with tokenCache := [], tokenCount := 0, tokenOffset := 0, flags := 0 }

/-- `BS_QUOTED_NAME & tq(n)` (the quoted field is all-ones or zero in C). -/
def qnFlag (t : BsTok) : Nat := if t.quoted then BS_QUOTED_NAME else 0
/-- `BS_QUOTED_VALUE & tq(n)`. -/
def qvFlag (t : BsTok) : Nat := if t.quoted then BS_QUOTED_VALUE else 0

/-- Or extra flags onto a node (`newnode->flags |= ...`). -/
def orNodeFlags (d : BsDict) (i : Nat) (fl : Nat) : BsDict :=
  match getNode d i with
  | some n => setNode d i (some { n with flags := n.flags ||| fl })
  | none => d

/-- Set a node's value (`newnode->value = ...; newnode->valueLen = ...`). -/
def setNodeValue (d : BsDict) (i : Nat) (v : Option (List Nat)) : BsDict :=
  match getNode d i with
  | some n => setNode d i (some { n with value := v })
  | none => d

/-- `newnode = _bsCreateNode(...); newnode->flags |= fl;` — when the creation
fails the C dereferences NULL; the model leaves the dictionary unchanged and
reports no node. -/
def createN (d : BsDict) (parent ntype : Nat) (name : Option (List Nat))
    (namelen : Nat) (value : Option (List Nat)) (fl : Nat) :
    BsDict × Option Nat :=
  match bsCreateNodeIn d parent ntype name namelen value with
  | none => (d, none)
  | some (d, i) => (orNodeFlags d i fl, some i)

/-- The `for(int i = state.tokenOffset; i < state.tokenCount; i++)` flush of
pending tokens into anonymous array leaves, used by the GOT_TOKEN batch, the
in-array GOT_BLOCK/GOT_ARRAY cases and END_ARRAY.  The loop body reads
`td(i)`, and the `td` macro adds `state.tokenOffset` again, so a nonzero
offset double-shifts into the cache (reading a virgin slot at the end). -/
def arrayFlush (d : BsDict) (st : BsState) (head : Nat) (orFl : Nat) : BsDict :=
  (List.range (st.tokenCount - st.tokenOffset)).foldl (fun d k =>
    let t := tdTok st (st.tokenOffset + k)
    (createN d head BS_NODE_LEAF none 0 (some t.data) (qvFlag t ||| orFl)).1) d

/-- The leaf-pair loop of the `>= 5` tokens ENDVAL case (barser.c 3491..3502):
`for(i = tokenOffset + 1; i < tokenCount; i++)`, pairing `td(i)` as a name
with `td(i+1)` as its value when one more token exists (then skipping it),
else a valueless leaf.  `td` adds the offset on top of `i` again. -/
def pairLeafLoop (fuel : Nat) (d : BsDict) (st : BsState) (tmphead : Nat)
    (i : Nat) : BsDict :=
  match fuel with
  | 0 => d
  | f + 1 =>
    if i < st.tokenCount then
      if i + 1 < st.tokenCount then
        let tn := tdTok st i
        let tv := tdTok st (i+1)
        let d := (createN d tmphead BS_NODE_LEAF (some tn.data) tn.data.length
          (some tv.data) (qnFlag tn ||| qvFlag tv)).1
        pairLeafLoop f d st tmphead (i + 2)
      else
        let tn := tdTok st i
        let d := (createN d tmphead BS_NODE_LEAF (some tn.data) tn.data.length
          none (qnFlag tn)).1
        pairLeafLoop f d st tmphead (i + 1)
    else d

/-- The non-array arm of the GOT_ENDVAL handler (barser.c 3432..3508),
switched on `k = tokenCount - tokenOffset`. -/
def bsEndvalNonArray (d : BsDict) (st : BsState) (head : Nat) :
    BsDict × BsState :=
  let k := st.tokenCount - st.tokenOffset
  if k = 0 then (d, st)
  else if k = 1 then
    let t0 := tdTok st 0
    ((createN d head BS_NODE_LEAF (some t0.data) t0.data.length none
      (qnFlag t0 ||| st.flags)).1, st)
  else if k = 2 then
    let t0 := tdTok st 0
    let t1 := tdTok st 1
    ((createN d head BS_NODE_LEAF (some t0.data) t0.data.length (some t1.data)
      (qnFlag t0 ||| qvFlag t1 ||| st.flags)).1, st)
  else if k = 3 then
    let t0 := tdTok st 0
    let t1 := tdTok st 1
    let t2 := tdTok st 2
    match createN d head BS_NODE_INSTANCE (some t0.data) t0.data.length none
      (qnFlag t0 ||| st.flags) with
    | (d, none) => (d, st)
    | (d, some n1) =>
      match createN d n1 BS_NODE_BRANCH (some t1.data) t1.data.length none
        (qnFlag t1) with
      | (d, none) => (d, st)
      | (d, some n2) =>
        ((createN d n2 BS_NODE_LEAF (some t2.data) t2.data.length none
          (qnFlag t2)).1, st)
  else if k = 4 then
    let t0 := tdTok st 0
    let t1 := tdTok st 1
    let t2 := tdTok st 2
    let t3 := tdTok st 3
    match createN d head BS_NODE_INSTANCE (some t0.data) t0.data.length none
      (qnFlag t0 ||| st.flags) with
    | (d, none) => (d, st)
    | (d, some n1) =>
      match createN d n1 BS_NODE_BRANCH (some t1.data) t1.data.length none
        (qnFlag t1) with
      | (d, none) => (d, st)
      | (d, some n2) =>
        ((createN d n2 BS_NODE_LEAF (some t2.data) t2.data.length (some t3.data)
          (qnFlag t2 ||| qvFlag t3)).1, st)
  else
    if st.tokenCount > BS_MAX_TOKENS then (d, scanErr st BS_PERROR_TOKENS)
    else
      let t0 := tdTok st 0
      match createN d head BS_NODE_BRANCH (some t0.data) t0.data.length none
        (qnFlag t0 ||| st.flags) with
      | (d, none) => (d, st)
      | (d, some tmphead) =>
        (pairLeafLoop (st.tokenCount + 1) d st tmphead (st.tokenOffset + 1), st)

/-- The in-array arm of the GOT_ENDVAL handler (barser.c 3406..3430). -/
def bsEndvalArray (d : BsDict) (st : BsState) (head : Nat) :
    BsDict × BsState :=
  let k := st.tokenCount - st.tokenOffset
  if k = 0 then (d, st)
  else if k = 1 then
    let t0 := tdTok st 0
    match createN d head BS_NODE_LEAF none 0 none st.flags with
    | (d, none) => (d, st)
    | (d, some i) =>
      (orNodeFlags (setNodeValue d i (some t0.data)) i (qvFlag t0), st)
  else if k = 2 then
    let t1 := tdTok st 1
    ((createN d head BS_NODE_LEAF none 0 (some t1.data)
      (qvFlag t1 ||| st.flags)).1, st)
  else (d, scanErr st BS_PERROR_TOKENS)

/-- The byte string of the `"inactive"` modifier literal. -/
def inactiveStr : List Nat := [105, 110, 97, 99, 116, 105, 118, 101]

/-- One execution of the parser's `switch(state.parseEvent)` (barser.c
3263..3638).  Returns the dictionary, state, insertion head, node stack and
whether EOF ended the loop (`goto done`). -/
def bsParseEvent (d : BsDict) (st : BsState) (head : Nat) (stack : List Nat) :
    BsDict × BsState × Nat × List Nat × Bool :=
  if st.parseEvent = BS_GOT_TOKEN then
    -- node modifier detection, then token acceptance, then the cache-full check
    let st :=
      if st.tokenCount = 0 ∧ st.prev = ((58 : Int)) then  -- BS_MODIFIER_CHAR
        let t0 := tokAt st st.tokenOffset
        -- strncmp(ts(0), "inactive", tl(0) - 1): with tl(0) = 0 the size_t
        -- count underflows to SIZE_MAX and the compare runs to the NULs
        if t0.data.length ≠ 0 ∧ cstrnEq t0.data inactiveStr (t0.data.length - 1) then
          { st with flags := st.flags ||| BS_INACTIVE,
                    tokenOffset := st.tokenOffset + 1 }
        else st
      else st
    let st := { st with tokenCount := st.tokenCount + 1 }
    if st.tokenCount = BS_MAX_TOKENS then
      match getNode d head with
      | some hn =>
        if hn.ntype = BS_NODE_ARRAY then
          (arrayFlush d st head 0, tokenreset st, head, stack, false)
        else (d, scanErr st BS_PERROR_TOKENS, head, stack, false)
      | none => (d, scanErr st BS_PERROR_TOKENS, head, stack, false)
    else (d, st, head, stack, false)
  else if st.parseEvent = BS_GOT_BLOCK then
    match getNode d head with
    | none => (d, tokenreset st, head, stack, false)
    | some hn =>
      if hn.ntype = BS_NODE_ARRAY then
        let d := arrayFlush d st head st.flags
        let stack := head :: stack
        match createN d head BS_NODE_BRANCH none 0 none 0 with
        | (d, some nid) => (d, tokenreset st, nid, stack, false)
        | (d, none) => (d, tokenreset st, head, stack, false)
      else
        let k := st.tokenCount - st.tokenOffset
        if k = 1 then
          let t0 := tdTok st 0
          let stack := head :: stack
          match createN d head BS_NODE_BRANCH (some t0.data) t0.data.length none
            (qnFlag t0 ||| st.flags) with
          | (d, some nid) => (d, tokenreset st, nid, stack, false)
          | (d, none) => (d, tokenreset st, head, stack, false)
        else if k = 2 then
          let t0 := tdTok st 0
          let t1 := tdTok st 1
          let stack := head :: stack
          match createN d head BS_NODE_INSTANCE (some t0.data) t0.data.length none
            (qnFlag t0 ||| st.flags) with
          | (d, none) => (d, tokenreset st, head, stack, false)
          | (d, some n1) =>
            match createN d n1 BS_NODE_BRANCH (some t1.data) t1.data.length none
              (qnFlag t1) with
            | (d, some n2) => (d, tokenreset st, n2, stack, false)
            | (d, none) => (d, tokenreset st, head, stack, false)
        else if k = 3 then
          let t0 := tdTok st 0
          let t1 := tdTok st 1
          let t2 := tdTok st 2
          let stack := head :: stack
          match createN d head BS_NODE_INSTANCE (some t0.data) t0.data.length none
            (qnFlag t0 ||| st.flags) with
          | (d, none) => (d, tokenreset st, head, stack, false)
          | (d, some n1) =>
            match createN d n1 BS_NODE_BRANCH (some t1.data) t1.data.length none
              (qnFlag t1) with
            | (d, none) => (d, tokenreset st, head, stack, false)
            | (d, some n2) =>
              match createN d n2 BS_NODE_BRANCH (some t2.data) t2.data.length none
                (qnFlag t2) with
              | (d, some n3) => (d, tokenreset st, n3, stack, false)
              | (d, none) => (d, tokenreset st, head, stack, false)
        else if k = 0 then
          if st.tokenCount = 0 ∧ head = d.root ∧ stack = [] then
            -- imaginary descent: push the root to tolerate one outer block
            (d, tokenreset st, head, head :: stack, false)
          else (d, tokenreset (scanErr st BS_PERROR_EXP_ID), head, stack, false)
        else (d, tokenreset st, head, stack, false)
  else if st.parseEvent = BS_END_BLOCK then
    if st.tokenCount = 0 then
      match stack with
      | [] => (d, scanErr st BS_PERROR_BLOCK, head, stack, false)
      | h :: rest => (d, st, h, rest, false)
    else
      match getNode d head with
      | none => (d, st, head, stack, false)
      | some hn =>
        if hn.ntype = BS_NODE_ARRAY then
          (d, scanErr st BS_PERROR_BLOCK, head, stack, false)
        else
          -- fall-through to the ENDVAL rules, then pop (the aftermath)
          match bsEndvalNonArray d st head with
          | (d, st) =>
            if st.parseEvent = BS_END_BLOCK then
              match stack with
              | [] => (d, scanErr st BS_PERROR_LEVEL, head, stack, false)
              | h :: rest => (d, tokenreset st, h, rest, false)
            else (d, tokenreset st, head, stack, false)
  else if st.parseEvent = BS_GOT_ENDVAL then
    match getNode d head with
    | none => (d, tokenreset st, head, stack, false)
    | some hn =>
      match (if hn.ntype = BS_NODE_ARRAY then bsEndvalArray d st head
             else bsEndvalNonArray d st head) with
      | (d, st) => (d, tokenreset st, head, stack, false)
  else if st.parseEvent = BS_GOT_ARRAY then
    match getNode d head with
    | none => (d, tokenreset st, head, stack, false)
    | some hn =>
      if hn.ntype = BS_NODE_ARRAY then
        let d := arrayFlush d st head 0
        let stack := head :: stack
        match createN d head BS_NODE_ARRAY none 0 none 0 with
        | (d, some nid) => (d, tokenreset st, nid, stack, false)
        | (d, none) => (d, tokenreset st, head, stack, false)
      else
        let k := st.tokenCount - st.tokenOffset
        if k = 1 then
          let t0 := tdTok st 0
          let stack := head :: stack
          match createN d head BS_NODE_ARRAY (some t0.data) t0.data.length none
            (qnFlag t0 ||| st.flags) with
          | (d, some nid) => (d, tokenreset st, nid, stack, false)
          | (d, none) => (d, tokenreset st, head, stack, false)
        else if k = 2 then
          let t0 := tdTok st 0
          let t1 := tdTok st 1
          let stack := head :: stack
          match createN d head BS_NODE_INSTANCE (some t0.data) t0.data.length none
            (qnFlag t0 ||| st.flags) with
          | (d, none) => (d, tokenreset st, head, stack, false)
          | (d, some n1) =>
            match createN d n1 BS_NODE_ARRAY (some t1.data) t1.data.length none
              (qnFlag t1) with
            | (d, some n2) => (d, tokenreset st, n2, stack, false)
            | (d, none) => (d, tokenreset st, head, stack, false)
        else if k = 3 then
          let t0 := tdTok st 0
          let t1 := tdTok st 1
          let t2 := tdTok st 2
          let stack := head :: stack
          match createN d head BS_NODE_INSTANCE (some t0.data) t0.data.length none
            (qnFlag t0 ||| st.flags) with
          | (d, none) => (d, tokenreset st, head, stack, false)
          | (d, some n1) =>
            match createN d n1 BS_NODE_BRANCH (some t1.data) t1.data.length none
              (qnFlag t1) with
            | (d, none) => (d, tokenreset st, head, stack, false)
            | (d, some n2) =>
              match createN d n2 BS_NODE_ARRAY (some t2.data) t2.data.length none
                (qnFlag t2) with
              | (d, some n3) => (d, tokenreset st, n3, stack, false)
              | (d, none) => (d, tokenreset st, head, stack, false)
        else if k = 0 then
          (d, tokenreset (scanErr st BS_PERROR_EXP_ID), head, stack, false)
        else (d, tokenreset st, head, stack, false)
  else if st.parseEvent = BS_END_ARRAY then
    let st := match getNode d head with
      | some hn => if hn.ntype ≠ BS_NODE_ARRAY then scanErr st BS_PERROR_BLOCK else st
      | none => st
    -- leftover tokens become anonymous leaves even on the error path
    -- (under a non-array head the creations fail; the C dereferences NULL there)
    let d := arrayFlush d st head 0
    match stack with
    | [] => (d, scanErr st BS_PERROR_BLOCK, head, stack, false)
    | h :: rest => (d, tokenreset st, h, rest, false)
  else if st.parseEvent = BS_GOT_EOF then
    let st := if st.tokenCount > 0 then scanErr st BS_PERROR_EOF else st
    (d, st, head, stack, true)
  else (d, st, head, stack, false)

/-- The main parse loop (`while(!state.parseError)`), one `bsScan` plus one
event dispatch per iteration.  `none` models a parse that does not finish
within the fuel. -/
def bsParseLoop (fuel : Nat) (d : BsDict) (st : BsState) (head : Nat)
    (stack : List Nat) : Option (BsDict × BsState × Nat × List Nat) :=
  match fuel with
  | 0 => none
  | f + 1 =>
    if st.parseError ≠ BS_PERROR_NONE then some (d, st, head, stack)
    else
      let st := { st with parseEvent := BS_NOEVENT, parseError := BS_PERROR_NONE }
      match bsScan (st.buf.length + 64) st with
      | none => none
      | some st =>
        match bsParseEvent d st head stack with
        | (d, st, head, stack, done) =>
          if done then some (d, st, head, stack)
          else bsParseLoop f d st head stack

/-- The `done:` check of `bsParse`: unless an error was already raised, the
head must have returned to the root, otherwise a LEVEL error — the node
stack is not examined. -/
def bsParseFinalize (st : BsState) (head root : Nat) : BsState :=
  if st.parseEvent ≠ BS_ERROR ∧ head ≠ root then
    { st with parseEvent := BS_ERROR, parseError := BS_PERROR_LEVEL }
  else st

/-- `bsParse(dict, buf, len)` with the final head/stack exposed for
examination (the C frees its local node stack on return). -/
def bsParseFull (fuel : Nat) (d : BsDict) (buf : List Nat) :
    Option (BsDict × BsState × Nat × List Nat) :=
  match bsParseLoop fuel d (bsInitState buf) d.root [] with
  | none => none
  | some (d, st, head, stack) =>
    some (d, bsParseFinalize st head d.root, head, stack)

/-- `bsParse(dict, buf, len)`: resulting dictionary and returned state. -/
def bsParse (fuel : Nat) (d : BsDict) (buf : List Nat) :
    Option (BsDict × BsState) :=
  match bsParseFull fuel d buf with
  | none => none
  | some (d, st, _, _) => some (d, st)

/-! ## Paths and queries (barser.c 2520..2585, 3726..3997) -/

/-- The leading skip of `unescapeToken`:
`while((((c = **in) == sep) || cclass(BF_WSP)) && c != '\0') (*in)++;`. -/
def skipSepWsp : List Nat → List Nat
  | [] => []
  | b :: r =>
    if (b = BS_PATH_SEP ∨ bclass b BF_WSP) ∧ b ≠ 0 then skipSepWsp r else b :: r

/-- The collection loop of `unescapeToken` (barser.c 2539..2578): bytes up to
the separator (which is consumed) or the NUL (list end), with the escape
byte mapping ESS-class bytes through `esccodes`, passing an escaped separator
through, and silently dropping itself before anything else. -/
def unescCollect : List Nat → List Nat → List Nat × List Nat
  | [], acc => (acc, [])
  | b :: r, acc =>
    if b = BS_PATH_SEP then (acc, r)
    else if b = BS_ESCAPE_CHAR then
      match r with
      | [] => (acc, [])
      | b2 :: r2 =>
        if bclass b2 BF_ESS then unescCollect r2 (acc ++ [esccodes b2])
        else if b2 = BS_PATH_SEP then unescCollect r2 (acc ++ [BS_PATH_SEP])
        else if b2 = 0 then (acc, b2 :: r2)
        else unescCollect r2 (acc ++ [b2])
    else if b = 0 then (acc, b :: r)
    else unescCollect r (acc ++ [b])

/-- `unescapeToken(out, in, sep)` with the path separator: `none` is the C's
NULL return (nothing before the end of the string). -/
def unescapeToken (l : List Nat) : Option (List Nat × List Nat) :=
  match skipSepWsp l with
  | [] => none
  | b :: r => if b = 0 then none else some (unescCollect (b :: r) [])

/-- Repeated `unescapeToken`: the token sequence of a query. -/
def pathTokens (fuel : Nat) (l : List Nat) : List (List Nat) :=
  match fuel with
  | 0 => []
  | f + 1 =>
    match unescapeToken l with
    | none => []
    | some (t, rest) => t :: pathTokens f rest

/-- `cleanupQuery(query)` (barser.c 3837..3866): re-join the unescaped tokens,
dropping empty ones, with single separators — which is exactly the C's
in-place rewrite. -/
def cleanupQuery (l : List Nat) : List Nat :=
  List.intercalate [BS_PATH_SEP]
    ((pathTokens (l.length + 1) l).filter (fun t => t.length ≠ 0))

/-- `getCleanQuery(query)`: a cleaned copy (the NULL/empty cases both give the
empty string). -/
def getCleanQuery (l : List Nat) : List Nat := cleanupQuery l

/-- `bsGetPathHash(root, query)` (barser.c 3890..3910): the reference node's
hash with every unescaped token's hash mixed in, in order. -/
def bsGetPathHash (d : BsDict) (node : Nat) (qry : List Nat) : Nat :=
  match getNode d node with
  | none => 0
  | some n =>
    (pathTokens (qry.length + 1) qry).foldl
      (fun h t => bsMixHash (xxHash32 t) h) n.hash

/-- `bsGetPath(node, out, outlen)` (barser.c 3726..3775) as the produced byte
string: the names from the root-level ancestor down to the node, separated by
`BS_PATH_SEP`; a separator precedes a name exactly when the walker's parent
itself has a parent.  The root's path is empty.  The fuel bounds the parent
chain (the C would walk a malformed cyclic chain forever). -/
def bsGetPath (fuel : Nat) (d : BsDict) (i : Nat) : List Nat :=
  match fuel with
  | 0 => []
  | f + 1 =>
    match getNode d i with
    | none => []
    | some n =>
      match n.parent with
      | none => []
      | some p =>
        match getNode d p with
        | none => n.name
        | some pn =>
          bsGetPath f d p ++ (if pn.parent ≠ none then [BS_PATH_SEP] else []) ++ n.name

/-- The chain-candidate test of `_bsGetChild` (indexed branch):
`n->parent == parent && n->nameLen == namelen && !strncmp(name, n->name, namelen)`. -/
def childMatch (d : BsDict) (parent : Nat) (name : List Nat) (namelen : Nat)
    (c : Nat) : Bool :=
  match getNode d c with
  | some cn => cn.parent = some parent ∧ cn.name.length = namelen ∧
      cstrnEq name cn.name namelen
  | none => false

/-- The naive-candidate test of `_bsGetChild` (unindexed branch):
`n->hash == hash && n->nameLen == namelen && !strncmp(name, n->name, namelen)`. -/
def childMatchH (d : BsDict) (h : Nat) (name : List Nat) (namelen : Nat)
    (c : Nat) : Bool :=
  match getNode d c with
  | some cn => cn.hash = h ∧ cn.name.length = namelen ∧
      cstrnEq name cn.name namelen
  | none => false

/-- The two-ended child list scan of `_bsGetChild` (barser.c 2204..2232):
positions `a` (from the head) and `b` (from the tail) over the child id
list, checking the head side first, meeting in the middle. -/
def twoEndFind (fuel : Nat) (cs : List Nat) (p : Nat → Bool) (a b : Nat) :
    Option Nat :=
  match fuel with
  | 0 => none
  | f + 1 =>
    match cs.get? a, cs.get? b with
    | some na, some nb =>
      if p na then some na
      else if a = b then none
      else if p nb then some nb
      else
        let a2 := a + 1
        if a2 = b then none
        else twoEndFind f cs p a2 (b - 1)
    | _, _ => none

/-- The collecting variant used by `_bsGetChildren` (barser.c 2274..2302):
every match is appended in the order the scan discovers it. -/
def twoEndCollect (fuel : Nat) (cs : List Nat) (p : Nat → Bool) (a b : Nat)
    (acc : List Nat) : List Nat :=
  match fuel with
  | 0 => acc
  | f + 1 =>
    match cs.get? a, cs.get? b with
    | some na, some nb =>
      let acc := if p na then acc ++ [na] else acc
      if a = b then acc
      else
        let acc := if p nb then acc ++ [nb] else acc
        let a2 := a + 1
        if a2 = b then acc
        else twoEndCollect f cs p a2 (b - 1) acc
    | _, _ => acc

/-- `_bsGetChild(dict, parent, name, namelen)` (barser.c 2177..2240). -/
def bsGetChildIn (d : BsDict) (parent : Nat) (name : List Nat) (namelen : Nat) :
    Option Nat :=
  if namelen = 0 then none
  else
    match getNode d parent with
    | none => none
    | some pn =>
      let h := bsMixHash (xxHash32 name) pn.hash
      if d.flags &&& BS_NOINDEX = 0 then
        (bsIndexGet d.index h).find? (childMatch d parent name namelen)
      else
        twoEndFind (pn.children.length + 1) pn.children
          (childMatchH d h name namelen) 0 (pn.children.length - 1)

/-- `_bsGetChildren(out, dict, parent, name, namelen)` (barser.c 2243..2310). -/
def bsGetChildrenIn (d : BsDict) (parent : Nat) (name : List Nat)
    (namelen : Nat) : List Nat :=
  if namelen = 0 then []
  else
    match getNode d parent with
    | none => []
    | some pn =>
      let h := bsMixHash (xxHash32 name) pn.hash
      if d.flags &&& BS_NOINDEX = 0 then
        (bsIndexGet d.index h).filter (childMatch d parent name namelen)
      else
        twoEndCollect (pn.children.length + 1) pn.children
          (childMatchH d h name namelen) 0 (pn.children.length - 1) []

/-- `bsGetChild(dict, parent, name)` (barser.c 4000..4007). -/
def bsGetChild (d : BsDict) (parent : Nat) (name : List Nat) : Option Nat :=
  bsGetChildIn d parent name (cstrlen name)

/-- The level-by-level descent of the unindexed branch of `bsNodeGet`
(barser.c 3951..3970): while candidates remain and tokens remain, replace the
candidate list by all matching children of its members. -/
def naiveDescend (fuel : Nat) (d : BsDict) (l : List Nat) (rest : List Nat) :
    List Nat :=
  match fuel with
  | 0 => l
  | f + 1 =>
    if l.length > 0 then
      match unescapeToken rest with
      | none => l
      | some (tok, rest2) =>
        let m := l.foldl (fun acc mb => acc ++ bsGetChildrenIn d mb tok tok.length) []
        naiveDescend f d m rest2
    else l

/-- `bsNodeGet(dict, node, qry)` (barser.c 3913..3991): compute the compound
query hash from the reference node, clean the query, and either walk the
index chain comparing each candidate's reconstructed absolute path with the
cleaned query, or descend naively. -/
def bsNodeGet (d : BsDict) (node : Nat) (qry : List Nat) : Option Nat :=
  let pfuel := d.nodes.length + 1
  let h := bsGetPathHash d node qry
  let cqry := getCleanQuery qry
  if d.flags &&& BS_NOINDEX = 0 then
    (bsIndexGet d.index h).find? (fun c => bsGetPath pfuel d c == cqry)
  else
    match naiveDescend (qry.length + 1) d [node] qry with
    | [] => none
    | x :: _ => some x

/-- `bsGet(dict, qry)` (barser.c 3994..3997). -/
def bsGet (d : BsDict) (qry : List Nat) : Option Nat := bsNodeGet d d.root qry

/-! ## Invariant checkers

Decidable formulations of the specification's universally quantified
invariants and of the structural well-formedness that the C maintains, stated
over live nodes of the arena. -/

/-- The hash invariant of one node (spec section 3, invariant 3): a parentless
node carries `BS_ROOT_HASH`; any other node's hash is its name hash mixed with
its (live) parent's hash. -/
def nodeHashOK (d : BsDict) (n : BsNode) : Bool :=
  match n.parent with
  | none => n.hash == BS_ROOT_HASH
  | some p =>
    match getNode d p with
    | some pn => n.hash == bsMixHash (xxHash32 n.name) pn.hash
    | none => false

/-- `hash == mix(H32(name), parent.hash, nameLen)` for every live node, and
the fixed constant for the root. -/
def hashInvCheck (d : BsDict) : Bool :=
  (List.range d.nodes.length).all fun i =>
    match getNode d i with
    | none => true
    | some n => nodeHashOK d n

/-- Structural well-formedness of one node: the only parentless node is the
root (id `d.root`); any other node's parent is live, has a smaller id
(creation order; establishes acyclicity) and lists the node among its
children. -/
def wfNodeCheck (d : BsDict) (i : Nat) (n : BsNode) : Bool :=
  match n.parent with
  | none => i == d.root
  | some p =>
    match getNode d p with
    | some pn => decide (i ∈ pn.children) && decide (p < i)
    | none => false

/-- Well-formedness of a node's child list: no duplicates, counter in sync,
every child live and pointing back. -/
def wfChildrenCheck (d : BsDict) (i : Nat) (n : BsNode) : Bool :=
  n.children.Nodup && n.childCount == n.children.length &&
  n.children.all fun c =>
    match getNode d c with
    | some cn => cn.parent == some i
    | none => false

/-- Well-formed dictionary: root at id 0, live and parentless; every live
node structurally sound. -/
def wfCheck (d : BsDict) : Bool :=
  d.root == 0 &&
  (match getNode d d.root with
   | some rn => rn.parent == none
   | none => false) &&
  (List.range d.nodes.length).all fun i =>
    match getNode d i with
    | none => true
    | some n => wfNodeCheck d i n && wfChildrenCheck d i n

/-- Index well-formedness: every chain entry is a live non-root node whose
stored hash is the bucket's hash, and every live non-root node carrying
`BS_INDEXED` occurs in the chain of its own hash. -/
def indexInvCheck (d : BsDict) : Bool :=
  (d.index.all fun p => p.2.all fun c =>
    match getNode d c with
    | some cn => cn.hash == p.1 && cn.parent ≠ none
    | none => false) &&
  (List.range d.nodes.length).all fun i =>
    match getNode d i with
    | none => true
    | some n =>
      match n.parent with
      | none => true
      | some _ => n.flags &&& BS_INDEXED == 0 || decide (i ∈ bsIndexGet d.index n.hash)

/-- The array naming invariant (spec section 8, invariant 4): under every live
ARRAY node the i-th child (insertion order) is named `u32toa i`, with the
counter in sync. -/
def arrayInvCheck (d : BsDict) : Bool :=
  (List.range d.nodes.length).all fun i =>
    match getNode d i with
    | none => true
    | some n =>
      n.ntype ≠ BS_NODE_ARRAY ||
      (n.childCount == n.children.length &&
       (List.range n.children.length).all fun idx =>
         match n.children.get? idx with
         | some c =>
           match getNode d c with
           | some cn => cn.name == u32toa idx
           | none => false
         | none => false)

/-- No live node's name contains a NUL byte (true of everything barser
creates; C strings make it implicit). -/
def namesNulFreeCheck (d : BsDict) : Bool :=
  (List.range d.nodes.length).all fun i =>
    match getNode d i with
    | none => true
    | some n => decide (0 ∉ n.name)

/-! ## The spec-side ENDVAL table (for the refinement half of C5)

`specEndvalCreate` renders the table of spec section 4.2 ("Arity-driven
creation on ENDVAL", non-array case) using the same creation primitive as the
code: k effective tokens t0..t(k-1) make nothing / a leaf / a leaf with value
/ INSTANCE t0 of BRANCH t1 of LEAF t2 (with value t3 when k = 4) / a BRANCH
t0 whose children pair each remaining token with the following one as its
value, the last leaf valueless when the remainder is odd. -/

/-- Spec wording: "for i in [1..k): LEAF ti; if i+1 exists, consume i+1 as its
value and skip". -/
def specPairs (d : BsDict) (tmphead : Nat) : List BsTok → BsDict
  | [] => d
  | [tn] => (createN d tmphead BS_NODE_LEAF (some tn.data) tn.data.length none
      (qnFlag tn)).1
  | tn :: tv :: rest =>
    specPairs ((createN d tmphead BS_NODE_LEAF (some tn.data) tn.data.length
      (some tv.data) (qnFlag tn ||| qvFlag tv)).1) tmphead rest

/-- The spec's ENDVAL table over the effective token list (statement flags
`fl` applied to the statement's top-most created node, quoted flags carried
from the tokens). -/
def specEndvalCreate (d : BsDict) (head : Nat) (fl : Nat) : List BsTok → BsDict
  | [] => d
  | [t0] =>
    (createN d head BS_NODE_LEAF (some t0.data) t0.data.length none
      (qnFlag t0 ||| fl)).1
  | [t0, t1] =>
    (createN d head BS_NODE_LEAF (some t0.data) t0.data.length (some t1.data)
      (qnFlag t0 ||| qvFlag t1 ||| fl)).1
  | [t0, t1, t2] =>
    match createN d head BS_NODE_INSTANCE (some t0.data) t0.data.length none
      (qnFlag t0 ||| fl) with
    | (d, none) => d
    | (d, some n1) =>
      match createN d n1 BS_NODE_BRANCH (some t1.data) t1.data.length none
        (qnFlag t1) with
      | (d, none) => d
      | (d, some n2) =>
        (createN d n2 BS_NODE_LEAF (some t2.data) t2.data.length none
          (qnFlag t2)).1
  | [t0, t1, t2, t3] =>
    match createN d head BS_NODE_INSTANCE (some t0.data) t0.data.length none
      (qnFlag t0 ||| fl) with
    | (d, none) => d
    | (d, some n1) =>
      match createN d n1 BS_NODE_BRANCH (some t1.data) t1.data.length none
        (qnFlag t1) with
      | (d, none) => d
      | (d, some n2) =>
        (createN d n2 BS_NODE_LEAF (some t2.data) t2.data.length (some t3.data)
          (qnFlag t2 ||| qvFlag t3)).1
  | t0 :: rest =>
    match createN d head BS_NODE_BRANCH (some t0.data) t0.data.length none
      (qnFlag t0 ||| fl) with
    | (d, none) => d
    | (d, some tmphead) => specPairs d tmphead rest

/-! ## Concrete dictionaries used by the C1 counterexample -/

/-- The dictionary from parsing `"a/b" v;` — one leaf whose quoted name
contains the path separator. -/
def c1dictSlash : BsDict :=
  ((bsParseFull 32 (bsCreate [] 0) [34, 97, 47, 98, 34, 32, 118, 59]).map
    (fun r => r.1)).getD (bsCreate [] 0)

/-- The dictionary from parsing the empty buffer — just the root. -/
def c1dictEmpty : BsDict :=
  ((bsParseFull 8 (bsCreate [] 0) []).map (fun r => r.1)).getD (bsCreate [] 0)

/-- The dictionary from parsing `a 1; a 2;` — two sibling leaves with the
same name, hence the same path. -/
def c1dictDup : BsDict :=
  ((bsParseFull 32 (bsCreate [] 0) [97, 32, 49, 59, 32, 97, 32, 50, 59]).map
    (fun r => r.1)).getD (bsCreate [] 0)

/-! ## Concrete inputs and states used by the C5, C7, C8 and C9 theorems -/

/-- The bytes of `inactive: a b c d e f;`. -/
def c5input : List Nat :=
  [105, 110, 97, 99, 116, 105, 118, 101, 58, 32,
   97, 32, 98, 32, 99, 32, 100, 32, 101, 32, 102, 59]

/-- The parser state right before the ENDVAL dispatch of
`inactive: a b c d e f;`: seven cached tokens, the modifier consumed as
`tokenOffset = 1`, the INACTIVE statement flag set. -/
def c5state : BsState :=
  { buf := [], pos := 0, prev := 59, linestart := 0, slinestart := 0
    linepos := 0, lineno := 1, slinepos := 0, slineno := 1
    scanState := BS_SKIP_WHITESPACE, parseEvent := BS_GOT_ENDVAL
    parseError := BS_PERROR_NONE
    tokenCache := [⟨inactiveStr, false⟩, ⟨[97], false⟩, ⟨[98], false⟩,
      ⟨[99], false⟩, ⟨[100], false⟩, ⟨[101], false⟩, ⟨[102], false⟩]
    tokenCount := 7, tokenOffset := 1, flags := BS_INACTIVE }

/-- A two-token ENDVAL state with no modifier offset (`n v;`). -/
def c5stateW : BsState :=
  { buf := [], pos := 0, prev := 59, linestart := 0, slinestart := 0
    linepos := 0, lineno := 1, slinepos := 0, slineno := 1
    scanState := BS_SKIP_WHITESPACE, parseEvent := BS_GOT_ENDVAL
    parseError := BS_PERROR_NONE
    tokenCache := [⟨[110], false⟩, ⟨[118], false⟩]
    tokenCount := 2, tokenOffset := 0, flags := 0 }

/-- Twenty space-separated `a` identifiers with no terminator. -/
def c7tokens20 : List Nat := List.flatten (List.replicate 19 [97, 32]) ++ [97]

/-- Nineteen space-separated `a` identifiers closed by `;`. -/
def c7tokens19 : List Nat :=
  List.flatten (List.replicate 18 [97, 32]) ++ [97, 59]

/-- `x[` followed by twenty space-separated `a` identifiers and `];`. -/
def c7array20 : List Nat :=
  [120, 91] ++ List.flatten (List.replicate 19 [97, 32]) ++ [97, 93, 59]

/-- A scanner state carrying nineteen already-counted tokens whose next event
is a twentieth token (used to instantiate the C7 theorem). -/
def c7state : BsState :=
  { buf := [], pos := 0, prev := 0, linestart := 0, slinestart := 0
    linepos := 0, lineno := 1, slinepos := 0, slineno := 1
    scanState := BS_SKIP_WHITESPACE, parseEvent := BS_GOT_TOKEN
    parseError := BS_PERROR_NONE, tokenCache := []
    tokenCount := 19, tokenOffset := 0, flags := 0 }

/-- The dictionary from parsing `arr [ 1 2 3 ];`. -/
def c8dict : BsDict :=
  ((bsParseFull 32 (bsCreate [] 0)
    [97, 114, 114, 32, 91, 32, 49, 32, 50, 32, 51, 32, 93, 59]).map
    (fun r => r.1)).getD (bsCreate [] 0)

/-- A dictionary holding one empty ARRAY node `a` (id 1) under the root. -/
def c8adict : BsDict :=
  ((bsCreateNodeIn (bsCreate [] 0) 0 BS_NODE_ARRAY (some [97]) 1 none).map
    (fun p => p.1)).getD (bsCreate [] 0)

/-- The ARRAY node of `c8adict` as a literal. -/
def c8anode : BsNode :=
  { parent := some 0, name := [97], value := none, children := []
    childCount := 0, ntype := BS_NODE_ARRAY, flags := BS_INDEXED
    hash := bsMixHash (xxHash32 [97]) BS_ROOT_HASH }

/-- The root node of a fresh dictionary as a literal. -/
def rootNode0 : BsNode :=
  { parent := none, name := [], value := none, children := []
    childCount := 0, ntype := BS_NODE_ROOT, flags := 0, hash := BS_ROOT_HASH }

/-! ## Proposition-level views of the invariants

The Bool-valued checkers above decide concrete dictionaries; the proofs use
these equivalent propositional forms. -/

/-- The parent pointer of an arena slot. -/
def parentOf (d : BsDict) (j : Nat) : Option Nat :=
  (getNode d j).bind (fun n => n.parent)

/-- `Up d i j`: starting at node `j` and following parent pointers, node `i`
is reached (`i` is `j` or an ancestor of `j`). -/
inductive Up (d : BsDict) : Nat → Nat → Prop where
  | refl (i : Nat) : Up d i i
  | step {i j p : Nat} : parentOf d j = some p → Up d i p → Up d i j

/-- Everything of a node except its hash. -/
def nodeSkel (n : BsNode) :
    Option Nat × List Nat × Option (List Nat) × List Nat × Nat × Nat × Nat :=
  (n.parent, n.name, n.value, n.children, n.childCount, n.ntype, n.flags)

/-- Two dictionaries with the same skeleton: only hashes (and the index,
which no invariant below reads) may differ. -/
def skelEq (d e : BsDict) : Prop :=
  e.root = d.root ∧ e.flags = d.flags ∧ e.nodes.length = d.nodes.length ∧
  ∀ j, (getNode e j).map nodeSkel = (getNode d j).map nodeSkel

/-- The structural facts of `wfCheck` as propositions: children point back and
are duplicate-free with the counter in sync; a parent is live, has a smaller
id (creation order — this is what makes the arena a forest) and lists the
node among its children. -/
structure WfSkel (d : BsDict) : Prop where
  back : ∀ j n, getNode d j = some n → ∀ c ∈ n.children,
    ∃ cn, getNode d c = some cn ∧ cn.parent = some j
  up : ∀ j n p, getNode d j = some n → n.parent = some p →
    p < j ∧ ∃ pn, getNode d p = some pn ∧ j ∈ pn.children
  nodup : ∀ j n, getNode d j = some n → n.children.Nodup
  count : ∀ j n, getNode d j = some n → n.childCount = n.children.length

/-- The hash invariant as a proposition over live nodes. -/
def HashInv (d : BsDict) : Prop :=
  ∀ j n, getNode d j = some n → nodeHashOK d n = true

/-- The hash invariant at every live node except possibly `i` (the state
`bsCopyNode` leaves while the source is temporarily renamed). -/
def HashInvExcept (d : BsDict) (i : Nat) : Prop :=
  ∀ j n, getNode d j = some n → j ≠ i → nodeHashOK d n = true

/-- Hashes of live nodes survive from `d` into `e` (new nodes may appear). -/
def hashPreserved (d e : BsDict) : Prop :=
  ∀ q qn, getNode d q = some qn → ∃ qn', getNode e q = some qn' ∧ qn'.hash = qn.hash

/-! # Theorems -/

/-! ## Shared helper lemmas -/

theorem getNode_some_iff {d : BsDict} {i : Nat} {n : BsNode} :
    getNode d i = some n ↔ d.nodes.get? i = some (some n) := by
  unfold getNode
  cases h : d.nodes.get? i with
  | none => simp
  | some o => cases o <;> simp

theorem getNode_lt {d : BsDict} {i : Nat} {n : BsNode}
    (h : getNode d i = some n) : i < d.nodes.length := by
  have h2 := getNode_some_iff.mp h
  by_contra hge
  rw [List.get?_eq_getElem?, List.getElem?_eq_none (by omega)] at h2
  exact Option.noConfusion h2

theorem tdTok_get {st : BsState} {i : Nat} {t : BsTok}
    (h0 : st.tokenOffset = 0) (h : st.tokenCache.get? i = some t) :
    tdTok st i = t := by
  unfold tdTok tokAt
  rw [h0, Nat.add_zero, h]
  rfl

theorem pairLeafLoop_drop (st : BsState) (h0 : st.tokenOffset = 0)
    (h1 : st.tokenCount = st.tokenCache.length) :
    ∀ (f : Nat) (d : BsDict) (tmphead i : Nat), st.tokenCount ≤ i + f →
      pairLeafLoop f d st tmphead i = specPairs d tmphead (st.tokenCache.drop i) := by
  intro f
  induction f with
  | zero =>
    intro d tmphead i hle
    have hd : st.tokenCache.drop i = [] := List.drop_eq_nil_of_le (by omega)
    simp [pairLeafLoop, hd, specPairs]
  | succ f ih =>
    intro d tmphead i hle
    by_cases hi : i < st.tokenCount
    · have hia : i < st.tokenCache.length := by omega
      have htn : st.tokenCache.get? i = some st.tokenCache[i] := by
        simp [hia]
      have hdropi : st.tokenCache.drop i =
          st.tokenCache[i] :: st.tokenCache.drop (i + 1) :=
        List.drop_eq_getElem_cons hia
      by_cases hi2 : i + 1 < st.tokenCount
      · have hib : i + 1 < st.tokenCache.length := by omega
        have htv : st.tokenCache.get? (i + 1) =
            some st.tokenCache[i + 1] := by simp [hib]
        have hdropi2 : st.tokenCache.drop (i + 1) =
            st.tokenCache[i + 1] :: st.tokenCache.drop (i + 2) :=
          List.drop_eq_getElem_cons hib
        rw [pairLeafLoop]
        simp only [if_pos hi, if_pos hi2, tdTok_get h0 htn, tdTok_get h0 htv]
        rw [ih _ tmphead (i + 2) (by omega), hdropi, hdropi2]
        rfl
      · have htc : st.tokenCache.drop (i + 1) = [] :=
          List.drop_eq_nil_of_le (by omega)
        rw [pairLeafLoop]
        simp only [if_pos hi, if_neg hi2, tdTok_get h0 htn]
        rw [ih _ tmphead (i + 1) (by omega), htc, hdropi, htc]
        rfl
    · have hd : st.tokenCache.drop i = [] := List.drop_eq_nil_of_le (by omega)
      rw [pairLeafLoop]
      simp [if_neg hi, hd, specPairs]

/-! ## Bridges between the Bool checkers and their propositional views -/

theorem getNode_none_of_ge {d : BsDict} {j : Nat} (h : d.nodes.length ≤ j) :
    getNode d j = none := by
  unfold getNode
  rw [List.get?_eq_getElem?, List.getElem?_eq_none h]
  rfl

theorem hashInv_of_check {d : BsDict} (h : hashInvCheck d = true) : HashInv d := by
  intro j n hj
  have hlt : j < d.nodes.length := getNode_lt hj
  unfold hashInvCheck at h
  rw [List.all_eq_true] at h
  have := h j (List.mem_range.mpr hlt)
  rw [hj] at this
  exact this

theorem check_of_hashInv {d : BsDict} (h : HashInv d) : hashInvCheck d = true := by
  unfold hashInvCheck
  rw [List.all_eq_true]
  intro j _
  cases hj : getNode d j with
  | none => rfl
  | some n => exact h j n hj

theorem wfSkel_of_check {d : BsDict} (h : wfCheck d = true) : WfSkel d := by
  unfold wfCheck at h
  rw [Bool.and_eq_true, Bool.and_eq_true, List.all_eq_true] at h
  obtain ⟨⟨-, -⟩, hall⟩ := h
  have node : ∀ j n, getNode d j = some n →
      wfNodeCheck d j n = true ∧ wfChildrenCheck d j n = true := by
    intro j n hj
    have hlt : j < d.nodes.length := getNode_lt hj
    have := hall j (List.mem_range.mpr hlt)
    rw [hj, Bool.and_eq_true] at this
    exact this
  refine ⟨?_, ?_, ?_, ?_⟩
  · intro j n hj c hc
    have h2 := (node j n hj).2
    unfold wfChildrenCheck at h2
    rw [Bool.and_eq_true, Bool.and_eq_true, List.all_eq_true] at h2
    have := h2.2 c hc
    cases hcn : getNode d c with
    | none => rw [hcn] at this; exact absurd this (by simp)
    | some cn =>
      rw [hcn] at this
      exact ⟨cn, rfl, by simpa using this⟩
  · intro j n p hj hp
    have h1 := (node j n hj).1
    unfold wfNodeCheck at h1
    simp only [hp] at h1
    cases hpn : getNode d p with
    | none => simp [hpn] at h1
    | some pn =>
      simp only [hpn, Bool.and_eq_true, decide_eq_true_eq] at h1
      exact ⟨h1.2, pn, rfl, h1.1⟩
  · intro j n hj
    have h2 := (node j n hj).2
    unfold wfChildrenCheck at h2
    rw [Bool.and_eq_true, Bool.and_eq_true] at h2
    simpa using h2.1.1
  · intro j n hj
    have h2 := (node j n hj).2
    unfold wfChildrenCheck at h2
    rw [Bool.and_eq_true, Bool.and_eq_true] at h2
    simpa using h2.1.2

/-! ## Arena access toolkit -/

theorem getNode_index_irrel {d : BsDict} {x : List (Nat × List Nat)} {j : Nat} :
    getNode { d with index := x } j = getNode d j := rfl

theorem getNode_setNode_self {d : BsDict} {i : Nat} {x : Option BsNode}
    (h : i < d.nodes.length) : getNode (setNode d i x) i = x := by
  unfold getNode setNode
  rw [List.get?_eq_getElem?, List.getElem?_set_self (by simpa using h)]
  rfl

theorem getNode_setNode_ne {d : BsDict} {i j : Nat} {x : Option BsNode}
    (h : i ≠ j) : getNode (setNode d i x) j = getNode d j := by
  unfold getNode setNode
  rw [List.get?_eq_getElem?, List.get?_eq_getElem?, List.getElem?_set_ne h]

theorem getNode_append {d : BsDict} {x : Option BsNode} {j : Nat}
    (h : j < d.nodes.length) :
    getNode { d with nodes := d.nodes ++ [x] } j = getNode d j := by
  unfold getNode
  rw [List.get?_eq_getElem?, List.get?_eq_getElem?, List.getElem?_append_left h]

theorem getNode_append_self {d : BsDict} {x : Option BsNode} :
    getNode { d with nodes := d.nodes ++ [x] } d.nodes.length = x := by
  unfold getNode
  rw [List.get?_concat_length]
  rfl

theorem getNode_nodecount_irrel {d : BsDict} {x : Nat} {j : Nat} :
    getNode { d with nodecount := x } j = getNode d j := rfl

/-- What `_bsCreateNode` does to the arena, entry by entry. -/
theorem bsCreateNodeIn_entries {d : BsDict} {parent ntype namelen : Nat}
    {name value : Option (List Nat)} {d' : BsDict} {newId : Nat} {pn : BsNode}
    (hpn : getNode d parent = some pn)
    (h : bsCreateNodeIn d parent ntype name namelen value = some (d', newId)) :
    newId = d.nodes.length ∧
    d'.nodes.length = d.nodes.length + 1 ∧
    d'.root = d.root ∧ d'.flags = d.flags ∧
    d'.nodecount = d.nodecount + 1 ∧
    (∃ nn, getNode d' newId = some nn ∧ nn.parent = some parent ∧
      nn.children = [] ∧ nn.childCount = 0 ∧ nn.value = value ∧
      nn.ntype = ntype ∧
      nn.hash = bsMixHash (xxHash32 nn.name) pn.hash) ∧
    getNode d' parent = some { pn with children := pn.children ++ [newId],
                                        childCount := pn.childCount + 1 } ∧
    (∀ j, j ≠ parent → j ≠ newId → getNode d' j = getNode d j) := by
  have hplt : parent < d.nodes.length := getNode_lt hpn
  have hpne : parent ≠ d.nodes.length := Nat.ne_of_lt hplt
  unfold bsCreateNodeIn at h
  rw [hpn] at h
  simp only [] at h
  have main : ∀ (nd : BsNode) (idx : List (Nat × List Nat)),
      d' = { setNode { d with nodes := d.nodes ++ [some nd], index := idx } parent
              (some { pn with children := pn.children ++ [d.nodes.length],
                              childCount := pn.childCount + 1 }) with
             nodecount := d.nodecount + 1 } →
      d'.nodes.length = d.nodes.length + 1 ∧
      d'.root = d.root ∧ d'.flags = d.flags ∧
      d'.nodecount = d.nodecount + 1 ∧
      getNode d' d.nodes.length = some nd ∧
      getNode d' parent = some { pn with children := pn.children ++ [d.nodes.length],
                                          childCount := pn.childCount + 1 } ∧
      (∀ j, j ≠ parent → j ≠ d.nodes.length → getNode d' j = getNode d j) := by
    intro nd idx hd'
    subst hd'
    refine ⟨by simp [setNode], rfl, rfl, rfl, ?_, ?_, ?_⟩
    · simp only [getNode, setNode]
      rw [List.get?_set_ne _ _ hpne, List.get?_concat_length]
      rfl
    · simp only [getNode, setNode]
      rw [List.get?_eq_getElem?,
        List.getElem?_set_self (by simp only [List.length_append]; omega)]
      rfl
    · intro j hjp hjn
      simp only [getNode, setNode]
      rw [List.get?_set_ne _ _ (Ne.symm hjp)]
      by_cases hj : j < d.nodes.length
      · rw [List.get?_eq_getElem?, List.get?_eq_getElem?,
          List.getElem?_append_left hj]
      · rw [List.get?_eq_getElem?, List.get?_eq_getElem?,
          List.getElem?_eq_none
            (by simp only [List.length_append, List.length_cons,
              List.length_nil]; omega),
          List.getElem?_eq_none (by omega)]
  by_cases harr : pn.ntype = BS_NODE_ARRAY
  · simp only [if_pos harr] at h
    by_cases hidx : d.flags &&& BS_NOINDEX = 0 <;>
      [simp only [if_pos hidx, Option.some.injEq, Prod.mk.injEq] at h;
       simp only [if_neg hidx, Option.some.injEq, Prod.mk.injEq] at h] <;>
    · obtain ⟨hd', hnew⟩ := h
      subst hnew
      have := main _ _ hd'.symm
      exact ⟨rfl, this.1, this.2.1, this.2.2.1, this.2.2.2.1,
        ⟨_, this.2.2.2.2.1, rfl, rfl, rfl, rfl, rfl, rfl⟩,
        this.2.2.2.2.2.1, this.2.2.2.2.2.2⟩
  · simp only [if_neg harr] at h
    cases name with
    | none => simp at h
    | some nm =>
      simp only [] at h
      by_cases hidx : d.flags &&& BS_NOINDEX = 0 <;>
        [simp only [if_pos hidx, Option.some.injEq, Prod.mk.injEq] at h;
         simp only [if_neg hidx, Option.some.injEq, Prod.mk.injEq] at h] <;>
      · obtain ⟨hd', hnew⟩ := h
        subst hnew
        have := main _ _ hd'.symm
        exact ⟨rfl, this.1, this.2.1, this.2.2.1, this.2.2.2.1,
          ⟨_, this.2.2.2.2.1, rfl, rfl, rfl, rfl, rfl, rfl⟩,
          this.2.2.2.2.2.1, this.2.2.2.2.2.2⟩

theorem nodeHashOK_transfer {d e : BsDict} {n n' : BsNode}
    (h : nodeHashOK d n = true) (hp : n'.parent = n.parent)
    (hn : n'.name = n.name) (hh : n'.hash = n.hash)
    (hpres : hashPreserved d e) : nodeHashOK e n' = true := by
  unfold nodeHashOK at h ⊢
  rw [hp, hn, hh]
  cases hpar : n.parent with
  | none => rw [hpar] at h; exact h
  | some p =>
    simp only [hpar] at h ⊢
    cases hpn : getNode d p with
    | none => simp [hpn] at h
    | some pn =>
      simp only [hpn] at h
      obtain ⟨pn', hpn', hhash⟩ := hpres p pn hpn
      simp only [hpn', hhash]
      exact h

/-! ## Hash-invariant preservation: creation and the parse layer -/

theorem hashPreserved_refl (d : BsDict) : hashPreserved d d :=
  fun q qn hq => ⟨qn, hq, rfl⟩

theorem hashInv_createNodeIn {d : BsDict} {parent ntype namelen : Nat}
    {name value : Option (List Nat)} {d' : BsDict} {newId : Nat}
    (hinv : HashInv d)
    (h : bsCreateNodeIn d parent ntype name namelen value = some (d', newId)) :
    HashInv d' := by
  cases hpn : getNode d parent with
  | none => unfold bsCreateNodeIn at h; rw [hpn] at h; simp at h
  | some pn =>
    obtain ⟨hnew, hlen, hroot, hflags, hcount, ⟨nn, hnn, hnp, -, -, -, -, hnh⟩,
      hpar, hother⟩ := bsCreateNodeIn_entries hpn h
    have hdead : getNode d newId = none := by
      rw [hnew]; exact getNode_none_of_ge (Nat.le_refl _)
    have hpres : hashPreserved d d' := by
      intro q qn hq
      by_cases hqp : q = parent
      · subst hqp
        rw [hpn] at hq
        cases hq
        exact ⟨_, hpar, rfl⟩
      · have hqn : q ≠ newId := by
          intro he; subst he; rw [hdead] at hq; cases hq
        exact ⟨qn, by rw [hother q hqp hqn]; exact hq, rfl⟩
    intro j n hj
    by_cases hjn : j = newId
    · subst hjn
      rw [hnn] at hj
      cases hj
      simp [nodeHashOK, hnp, hpar, hnh]
    · by_cases hjp : j = parent
      · subst hjp
        rw [hpar] at hj
        cases hj
        exact nodeHashOK_transfer (hinv _ _ hpn) rfl rfl rfl hpres
      · rw [hother j hjp hjn] at hj
        exact nodeHashOK_transfer (hinv j n hj) rfl rfl rfl hpres

/-- Replacing one node without touching its parent pointer, name or hash
keeps the hash invariant. -/
theorem hashInv_replace_same {d : BsDict} {i : Nat} {n n' : BsNode}
    (hinv : HashInv d) (hi : getNode d i = some n)
    (hp : n'.parent = n.parent) (hnm : n'.name = n.name) (hh : n'.hash = n.hash) :
    HashInv (setNode d i (some n')) := by
  have hlt : i < d.nodes.length := getNode_lt hi
  have hpres : hashPreserved d (setNode d i (some n')) := by
    intro q qn hq
    by_cases hqi : q = i
    · subst hqi
      rw [hi] at hq
      cases hq
      exact ⟨n', getNode_setNode_self hlt, hh⟩
    · exact ⟨qn, by rw [getNode_setNode_ne (Ne.symm hqi)]; exact hq, rfl⟩
  intro j m hj
  by_cases hji : j = i
  · subst hji
    rw [getNode_setNode_self hlt] at hj
    cases hj
    exact nodeHashOK_transfer (hinv j n hi) hp hnm hh hpres
  · rw [getNode_setNode_ne (Ne.symm hji)] at hj
    exact nodeHashOK_transfer (hinv j m hj) rfl rfl rfl hpres

theorem hashInv_orNodeFlags {d : BsDict} (i fl : Nat) (hinv : HashInv d) :
    HashInv (orNodeFlags d i fl) := by
  unfold orNodeFlags
  cases hg : getNode d i with
  | none => exact hinv
  | some n => exact hashInv_replace_same hinv hg rfl rfl rfl

theorem hashInv_setNodeValue {d : BsDict} (i : Nat) (v : Option (List Nat))
    (hinv : HashInv d) : HashInv (setNodeValue d i v) := by
  unfold setNodeValue
  cases hg : getNode d i with
  | none => exact hinv
  | some n => exact hashInv_replace_same hinv hg rfl rfl rfl

theorem hashInv_createN {d : BsDict} (parent ntype : Nat)
    (name : Option (List Nat)) (namelen : Nat) (value : Option (List Nat))
    (fl : Nat) (hinv : HashInv d) :
    HashInv (createN d parent ntype name namelen value fl).1 := by
  unfold createN
  cases hc : bsCreateNodeIn d parent ntype name namelen value with
  | none => exact hinv
  | some p =>
    cases p with
    | mk d1 i => exact hashInv_orNodeFlags i fl (hashInv_createNodeIn hinv hc)

theorem hashInv_createN_eq {d d' : BsDict} {parent ntype : Nat}
    {name : Option (List Nat)} {namelen : Nat} {value : Option (List Nat)}
    {fl : Nat} {r : Option Nat} (hinv : HashInv d)
    (h : createN d parent ntype name namelen value fl = (d', r)) :
    HashInv d' := by
  have := hashInv_createN parent ntype name namelen value fl hinv
  rw [h] at this
  exact this

theorem hashInv_arrayFlush {d : BsDict} (st : BsState) (head orFl : Nat)
    (hinv : HashInv d) : HashInv (arrayFlush d st head orFl) := by
  unfold arrayFlush
  generalize List.range (st.tokenCount - st.tokenOffset) = l
  induction l generalizing d with
  | nil => exact hinv
  | cons a t ih =>
    rw [List.foldl_cons]
    exact ih (hashInv_createN _ _ _ _ _ _ hinv)

theorem hashInv_pairLeafLoop {st : BsState} (f : Nat) :
    ∀ (d : BsDict) (tmphead i : Nat), HashInv d →
      HashInv (pairLeafLoop f d st tmphead i) := by
  induction f with
  | zero => intro d tmphead i hinv; exact hinv
  | succ f ih =>
    intro d tmphead i hinv
    rw [pairLeafLoop]
    split
    · split
      · exact ih _ tmphead (i + 2) (hashInv_createN _ _ _ _ _ _ hinv)
      · exact ih _ tmphead (i + 1) (hashInv_createN _ _ _ _ _ _ hinv)
    · exact hinv

theorem hashInv_endvalNonArray {d : BsDict} (st : BsState) (head : Nat)
    (hinv : HashInv d) : HashInv (bsEndvalNonArray d st head).1 := by
  unfold bsEndvalNonArray
  dsimp only
  repeat' split
  all_goals try dsimp only
  all_goals
    try solve_by_elim [hashInv_createN, hashInv_createN_eq, hashInv_pairLeafLoop]
  all_goals
    exact hashInv_createN _ _ _ _ _ _
      (hashInv_createN_eq (hashInv_createN_eq hinv (by assumption)) (by assumption))

theorem hashInv_endvalNonArray_eq {d d' : BsDict} {st st' : BsState}
    {head : Nat} (hinv : HashInv d)
    (h : bsEndvalNonArray d st head = (d', st')) : HashInv d' := by
  have := hashInv_endvalNonArray st head hinv
  rw [h] at this
  exact this

theorem hashInv_endvalArray {d : BsDict} (st : BsState) (head : Nat)
    (hinv : HashInv d) : HashInv (bsEndvalArray d st head).1 := by
  unfold bsEndvalArray
  dsimp only
  repeat' split
  all_goals try dsimp only
  all_goals
    solve_by_elim [hashInv_createN, hashInv_createN_eq, hashInv_orNodeFlags,
      hashInv_setNodeValue]

theorem hashInv_endvalArray_eq {d d' : BsDict} {st st' : BsState}
    {head : Nat} (hinv : HashInv d)
    (h : bsEndvalArray d st head = (d', st')) : HashInv d' := by
  have := hashInv_endvalArray st head hinv
  rw [h] at this
  exact this

set_option maxHeartbeats 2000000 in
theorem hashInv_parseEvent {d : BsDict} (st : BsState) (head : Nat)
    (stack : List Nat) (hinv : HashInv d) :
    HashInv (bsParseEvent d st head stack).1 := by
  unfold bsParseEvent
  by_cases h1 : st.parseEvent = BS_GOT_TOKEN
  · rw [if_pos h1]
    suffices H : ∀ st1 : BsState, HashInv
        ((if st1.tokenCount = BS_MAX_TOKENS then
            match getNode d head with
            | some hn =>
              if hn.ntype = BS_NODE_ARRAY then
                (arrayFlush d st1 head 0, tokenreset st1, head, stack, false)
              else (d, scanErr st1 BS_PERROR_TOKENS, head, stack, false)
            | none => (d, scanErr st1 BS_PERROR_TOKENS, head, stack, false)
          else (d, st1, head, stack, false)) :
          BsDict × BsState × Nat × List Nat × Bool).1 by exact H _
    intro st1
    split
    · split
      · split
        · exact hashInv_arrayFlush _ _ _ hinv
        · exact hinv
      · exact hinv
    · exact hinv
  rw [if_neg h1]
  by_cases h2 : st.parseEvent = BS_GOT_BLOCK
  · rw [if_pos h2]
    split
    · exact hinv
    · split
      · suffices H : ∀ d1 : BsDict, HashInv d1 → HashInv
            ((match createN d1 head BS_NODE_BRANCH none 0 none 0 with
              | (d2, some nid) => (d2, tokenreset st, nid, head :: stack, false)
              | (d2, none) => (d2, tokenreset st, head, head :: stack, false)) :
              BsDict × BsState × Nat × List Nat × Bool).1 by
          exact H _ (hashInv_arrayFlush _ _ _ hinv)
        intro d1 hinv1
        split
        all_goals dsimp only
        all_goals solve_by_elim [hashInv_createN_eq]
      · dsimp only
        repeat' split
        all_goals try dsimp only
        all_goals try solve_by_elim [hashInv_createN, hashInv_createN_eq]
        all_goals
          exact hashInv_createN_eq
            (hashInv_createN_eq (hashInv_createN_eq hinv (by assumption))
              (by assumption)) (by assumption)
  rw [if_neg h2]
  by_cases h3 : st.parseEvent = BS_END_BLOCK
  · rw [if_pos h3]
    dsimp only
    repeat' split
    all_goals try dsimp only
    all_goals solve_by_elim [hashInv_endvalNonArray_eq]
  rw [if_neg h3]
  by_cases h4 : st.parseEvent = BS_GOT_ENDVAL
  · rw [if_pos h4]
    dsimp only
    repeat' split
    all_goals try dsimp only
    all_goals solve_by_elim [hashInv_endvalNonArray_eq, hashInv_endvalArray_eq]
  rw [if_neg h4]
  by_cases h5 : st.parseEvent = BS_GOT_ARRAY
  · rw [if_pos h5]
    split
    · exact hinv
    · split
      · suffices H : ∀ d1 : BsDict, HashInv d1 → HashInv
            ((match createN d1 head BS_NODE_ARRAY none 0 none 0 with
              | (d2, some nid) => (d2, tokenreset st, nid, head :: stack, false)
              | (d2, none) => (d2, tokenreset st, head, head :: stack, false)) :
              BsDict × BsState × Nat × List Nat × Bool).1 by
          exact H _ (hashInv_arrayFlush _ _ _ hinv)
        intro d1 hinv1
        split
        all_goals dsimp only
        all_goals solve_by_elim [hashInv_createN_eq]
      · dsimp only
        repeat' split
        all_goals try dsimp only
        all_goals try solve_by_elim [hashInv_createN, hashInv_createN_eq]
        all_goals
          exact hashInv_createN_eq
            (hashInv_createN_eq (hashInv_createN_eq hinv (by assumption))
              (by assumption)) (by assumption)
  rw [if_neg h5]
  by_cases h6 : st.parseEvent = BS_END_ARRAY
  · rw [if_pos h6]
    suffices H : ∀ st1 : BsState, HashInv
        ((match stack with
          | [] => (arrayFlush d st1 head 0, scanErr st1 BS_PERROR_BLOCK,
              head, stack, false)
          | h :: rest => (arrayFlush d st1 head 0, tokenreset st1,
              h, rest, false)) :
          BsDict × BsState × Nat × List Nat × Bool).1 by exact H _
    intro st1
    split <;> exact hashInv_arrayFlush _ _ _ hinv
  rw [if_neg h6]
  by_cases h7 : st.parseEvent = BS_GOT_EOF
  · rw [if_pos h7]
    exact hinv
  rw [if_neg h7]
  exact hinv

theorem hashInv_parseLoop (f : Nat) :
    ∀ (d : BsDict) (st : BsState) (head : Nat) (stack : List Nat)
      (r : BsDict × BsState × Nat × List Nat),
      HashInv d → bsParseLoop f d st head stack = some r → HashInv r.1 := by
  induction f with
  | zero => intro d st head stack r hinv h; cases h
  | succ f ih =>
    intro d st head stack r hinv h
    rw [bsParseLoop] at h
    split at h
    · cases h; exact hinv
    · dsimp only at h
      split at h
      · cases h
      · split at h
        · cases h
          exact hashInv_parseEvent _ _ _ hinv
        · exact ih _ _ _ _ _ (hashInv_parseEvent _ _ _ hinv) h

theorem hashInv_parse {f : Nat} {d : BsDict} {buf : List Nat}
    {r : BsDict × BsState} (hinv : HashInv d) (h : bsParse f d buf = some r) :
    HashInv r.1 := by
  unfold bsParse bsParseFull at h
  cases hl : bsParseLoop f d (bsInitState buf) d.root [] with
  | none => rw [hl] at h; cases h
  | some q =>
    rw [hl] at h
    rcases q with ⟨d1, st1, head1, stack1⟩
    cases h
    exact hashInv_parseLoop f _ _ _ _ _ hinv hl

theorem hashInv_bsCreate (name : List Nat) (flags : Nat) :
    HashInv (bsCreate name flags) := by
  intro j n hj
  unfold bsCreate getNode at hj
  cases j with
  | zero =>
    cases hj
    rfl
  | succ k => simp at hj

/-- C10 counterexample: the claim says empty-named non-root nodes are
unreachable through `get`/`getFromNode`; but after parsing `"" v;` (a leaf
under the root whose quoted name is empty), the query consisting of a single
escape byte resolves to that node through `bsGet`, and `bsNodeGet` from the
node itself with the empty query returns the node as well. -/
theorem c10_counterexample :
    (bsParseFull 32 (bsCreate [] 0) [34, 34, 32, 118, 59]).map
        (fun r => r.2.1.parseError) = some BS_PERROR_NONE ∧
    (bsParseFull 32 (bsCreate [] 0) [34, 34, 32, 118, 59]).bind
        (fun r => (getNode r.1 1).map (fun n =>
          (n.parent, n.name, bsGet r.1 [92], bsNodeGet r.1 1 []))) =
      some (some 0, [], some 1, some 1) := by
  exact ⟨by decide, by decide⟩

/-- C10 amended: `getChild` with the empty name indeed always reports absent
(for every dictionary and parent, even one that has an empty-named child),
and path cleanup collapses empty segments — but empty-named nodes are not
unreachable: a query token that unescapes to the empty string (a lone escape
byte) hashes the empty segment while the cleaned query collapses it, so for
an empty-named child of the root the path comparison succeeds and `bsGet`
returns the node; `bsNodeGet` from the node itself with an empty query also
returns it. -/
theorem c10_empty_name_amended :
    (∀ (d : BsDict) (p : Nat), bsGetChild d p [] = none) ∧
    cleanupQuery [92] = [] ∧
    (bsParseFull 32 (bsCreate [] 0) [34, 34, 32, 118, 59]).bind
        (fun r => (getNode r.1 1).map (fun n =>
          (n.parent, n.name, bsGet r.1 [92], bsNodeGet r.1 1 []))) =
      some (some 0, [], some 1, some 1) :=
  ⟨fun d p => rfl, by decide, by decide⟩

/-- C4: `bsRenameNode` is claimed to install every non-null new name on a
non-array-member node; but the guard the code comments `name unchanged`
compares only `min(nameLen, strlen(newname))` bytes, so renaming the leaf
`ab` to `abc` (or to `a`) is silently dropped: the function returns the node
with its old name and length intact, while renaming `ab` to `xy` does go
through. -/
theorem c4_rename_prefix_lost :
    (bsCreateNode (bsCreate [] 0) 0 BS_NODE_LEAF (some [97, 98]) none).bind
        (fun p => (bsRenameNode 4 p.1 p.2 (some [97, 98, 99])).bind
          (fun q => (getNode q.1 1).map (fun n => (n.name, q.2)))) =
      some ([97, 98], some 1) ∧
    (bsCreateNode (bsCreate [] 0) 0 BS_NODE_LEAF (some [97, 98]) none).bind
        (fun p => (bsRenameNode 4 p.1 p.2 (some [97])).bind
          (fun q => (getNode q.1 1).map (fun n => (n.name, q.2)))) =
      some ([97, 98], some 1) ∧
    (bsCreateNode (bsCreate [] 0) 0 BS_NODE_LEAF (some [97, 98]) none).bind
        (fun p => (bsRenameNode 4 p.1 p.2 (some [120, 121])).bind
          (fun q => (getNode q.1 1).map (fun n => (n.name, q.2)))) =
      some ([120, 121], some 1) := by
  exact ⟨by decide, by decide, by decide⟩

/-- C3: deleting the head of a collision chain drops the whole chain.  The
names `srba` and `anmpj` collide under `xxHash32`, so after parsing
`srba 1; anmpj 2;` both leaves share one bucket with chain `[1, 2]`.
`bsDeleteNode` of node 1 routes through `bsIndexDelete`
(src/unnamed/part_009), whose head-unlink branch sets the bucket value to
NULL: afterwards the chain for node 2's hash is empty although node 2 is
still live and still flagged `BS_INDEXED` — the claim requires node 2 to
remain in the chain. -/
theorem c3_index_delete_head_drop :
    (bsParseFull 32 (bsCreate [] 0)
        [115, 114, 98, 97, 32, 49, 59, 32, 97, 110, 109, 112, 106, 32, 50, 59]).bind
        (fun r => (bsDeleteNode 4 r.1 1).bind
          (fun p => (getNode p.1 2).map (fun n =>
            (r.2.1.parseError,
             bsIndexGet r.1.index n.hash,
             bsIndexGet p.1.index n.hash,
             n.flags &&& BS_INDEXED)))) =
      some (BS_PERROR_NONE, [1, 2], [], BS_INDEXED) := by
  decide

/-- C6 counterexample: the claim says a bare closing brace yields a LEVEL
error at line 1 column 1; the parser's END_BLOCK handler with an empty node
stack raises a BLOCK error instead (line 1, position 0, displayed as
column 1). -/
theorem c6_counterexample :
    (bsParseFull 8 (bsCreate [] 0) [125]).map
        (fun r => (r.2.1.parseError, r.2.1.lineno, r.2.1.linepos)) =
      some (BS_PERROR_BLOCK, 1, 0) ∧
    BS_PERROR_BLOCK ≠ BS_PERROR_LEVEL := by
  exact ⟨by decide, by decide⟩

/-- C7 counterexample: the claim accepts up to 20 consecutive identifiers and
errors on the 21st; in fact the 20th identifier already raises the TOKENS
error (`++tokenCount == BS_MAX_TOKENS` fires when the count reaches 20),
while 19 identifiers followed by a terminator parse cleanly. -/
theorem c7_counterexample :
    (bsParseFull 64 (bsCreate [] 0) c7tokens20).map
        (fun r => (r.2.1.parseError, r.2.1.tokenCount)) =
      some (BS_PERROR_TOKENS, BS_MAX_TOKENS) ∧
    (bsParseFull 64 (bsCreate [] 0) c7tokens19).map
        (fun r => r.2.1.parseError) = some BS_PERROR_NONE := by
  exact ⟨by decide, by decide⟩

/-- C9 counterexample: the claim says deleting the root leaves the tree
unchanged; in fact `bsDeleteNode` of the root deletes every child (the leaf
`a` from `a b;` is gone, the root's child list and counter are emptied) and
decrements the node counter (from 2 to 0), returning OK — only the root node
itself survives. -/
theorem c9_counterexample :
    (bsParseFull 16 (bsCreate [] 0) [97, 32, 98, 59]).bind
        (fun r => (bsDeleteNode 4 r.1 0).map (fun p =>
          (r.1.nodecount,
           p.1.nodecount,
           (getNode p.1 0).map (fun n => (n.children, n.childCount)),
           (getNode p.1 1).isSome,
           p.2))) =
      some (2, 0, some ([], 0), false, BS_NODE_OK) := by
  rfl

/-- C8 counterexample: the claim says array children are named by their
ordinal after every operation including member deletion; after parsing
`arr [ 1 2 3 ];` (children named `0`, `1`, `2`) and deleting the member
named `0`, the remaining children keep their old names: position 0 of the
array is now the node named `1` (byte 49), not `0` (byte 48). -/
theorem c8_counterexample :
    (bsParseFull 32 (bsCreate [] 0)
        [97, 114, 114, 32, 91, 32, 49, 32, 50, 32, 51, 32, 93, 59]).bind
        (fun r => (bsDeleteNode 4 r.1 2).bind
          (fun p => (getNode p.1 3).map (fun n =>
            ((getNode p.1 1).map (fun a => (a.children, a.childCount)), n.name)))) =
      some (some ([3, 4], 2), [49]) ∧
    u32toa 0 = [48] := by
  exact ⟨by decide, by decide⟩

/-- C1 counterexample: `get(dict, getPath(n)) == n` fails on parse-produced
dictionaries in three ways.  For the root of any dictionary the path is empty
and `bsGet` returns nothing.  For the leaf parsed from `"a/b" v;` the
unescaped path `a/b` re-tokenizes as two segments, so the compound hash
misses the node's bucket and the lookup returns nothing.  For the second of
the two identically named leaves of `a 1; a 2;` the lookup returns the first
chain entry (node 1), not the queried node 2. -/
theorem c1_counterexample :
    ((bsParseFull 32 (bsCreate [] 0) [34, 97, 47, 98, 34, 32, 118, 59]).map
        (fun r => (r.2.1.parseError, r.1)) = some (BS_PERROR_NONE, c1dictSlash) ∧
      (getNode c1dictSlash 1).map (fun n => n.name) = some [97, 47, 98] ∧
      bsGet c1dictSlash (bsGetPath (c1dictSlash.nodes.length + 1) c1dictSlash 1) ≠ some 1) ∧
    ((bsParseFull 8 (bsCreate [] 0) []).map
        (fun r => (r.2.1.parseError, r.1)) = some (BS_PERROR_NONE, c1dictEmpty) ∧
      bsGet c1dictEmpty (bsGetPath (c1dictEmpty.nodes.length + 1) c1dictEmpty c1dictEmpty.root) ≠
        some c1dictEmpty.root) ∧
    ((bsParseFull 32 (bsCreate [] 0) [97, 32, 49, 59, 32, 97, 32, 50, 59]).map
        (fun r => (r.2.1.parseError, r.1)) = some (BS_PERROR_NONE, c1dictDup) ∧
      (getNode c1dictDup 2).map (fun n => n.name) = some [97] ∧
      bsGet c1dictDup (bsGetPath (c1dictDup.nodes.length + 1) c1dictDup 2) ≠ some 2) := by
  refine ⟨⟨by decide, by decide, ?_⟩, ⟨by decide, ?_⟩, ⟨by decide, by decide, ?_⟩⟩
  · have h : bsGetPath (c1dictSlash.nodes.length + 1) c1dictSlash 1 = [97, 47, 98] := by decide
    rw [h]; decide
  · have h : bsGetPath (c1dictEmpty.nodes.length + 1) c1dictEmpty c1dictEmpty.root = [] := by decide
    rw [h]; decide
  · have h : bsGetPath (c1dictDup.nodes.length + 1) c1dictDup 2 = [97] := by decide
    rw [h]; decide

/-- C5: with `tokenOffset = 0` the non-array ENDVAL handler agrees exactly
with the claimed arity table over the cached tokens; but the `td` macro adds
`tokenOffset` to a loop index that already starts at `tokenOffset`, so with a
nonzero offset (a consumed `inactive:` modifier) the `k ≥ 5` pairing loop
reads the cache double-shifted: for `inactive: a b c d e f;` the BRANCH `a`
receives leaves `c = d`, `e = f` and an empty-named valueless leaf instead of
the claimed `b = c`, `d = e`, `f`. -/
theorem c5_endval_offset :
    (∀ (d : BsDict) (st : BsState) (head : Nat),
        st.tokenOffset = 0 → st.tokenCount = st.tokenCache.length →
        st.tokenCount ≤ BS_MAX_TOKENS →
        bsEndvalNonArray d st head =
          (specEndvalCreate d head st.flags st.tokenCache, st)) ∧
    bsEndvalNonArray (bsCreate [] 0) c5state 0 ≠
      (specEndvalCreate (bsCreate [] 0) 0 c5state.flags
        (c5state.tokenCache.drop c5state.tokenOffset), c5state) ∧
    (bsParseFull 64 (bsCreate [] 0) c5input).bind (fun r =>
        (getNode r.1 1).map (fun n =>
          (r.2.1.parseError, n.ntype, n.name, n.children,
           (getNode r.1 2).map (fun m => (m.name, m.value)),
           (getNode r.1 3).map (fun m => (m.name, m.value)),
           (getNode r.1 4).map (fun m => (m.name, m.value))))) =
      some (BS_PERROR_NONE, BS_NODE_BRANCH, [97], [2, 3, 4],
        some ([99], some [100]), some ([101], some [102]), some ([], none)) := by
  refine ⟨?_, by decide, by rfl⟩
  intro d st head h0 h1 h2
  rcases hcache : st.tokenCache with _ | ⟨t0, _ | ⟨t1, _ | ⟨t2, _ | ⟨t3, _ | ⟨t4, rest⟩⟩⟩⟩⟩
  · have htc : st.tokenCount = 0 := by rw [h1, hcache]; rfl
    simp [bsEndvalNonArray, specEndvalCreate, htc, h0, hcache]
  · have htc : st.tokenCount = 1 := by rw [h1, hcache]; rfl
    have ht0 : tdTok st 0 = t0 := tdTok_get h0 (by rw [hcache]; rfl)
    simp [bsEndvalNonArray, specEndvalCreate, htc, h0, hcache, ht0]
  · have htc : st.tokenCount = 2 := by rw [h1, hcache]; rfl
    have ht0 : tdTok st 0 = t0 := tdTok_get h0 (by rw [hcache]; rfl)
    have ht1 : tdTok st 1 = t1 := tdTok_get h0 (by rw [hcache]; rfl)
    simp [bsEndvalNonArray, specEndvalCreate, htc, h0, hcache, ht0, ht1]
  · have htc : st.tokenCount = 3 := by rw [h1, hcache]; rfl
    have ht0 : tdTok st 0 = t0 := tdTok_get h0 (by rw [hcache]; rfl)
    have ht1 : tdTok st 1 = t1 := tdTok_get h0 (by rw [hcache]; rfl)
    have ht2 : tdTok st 2 = t2 := tdTok_get h0 (by rw [hcache]; rfl)
    simp only [bsEndvalNonArray, specEndvalCreate, htc, h0, hcache, ht0, ht1, ht2,
      Nat.sub_zero]
    norm_num
    rcases hcr1 : createN d head BS_NODE_INSTANCE (some t0.data) t0.data.length
      none (qnFlag t0 ||| st.flags) with ⟨d1, _ | n1⟩
    · simp [hcr1]
    · rcases hcr2 : createN d1 n1 BS_NODE_BRANCH (some t1.data) t1.data.length
        none (qnFlag t1) with ⟨d2, _ | n2⟩
      · simp [hcr1, hcr2]
      · simp [hcr1, hcr2]
  · have htc : st.tokenCount = 4 := by rw [h1, hcache]; rfl
    have ht0 : tdTok st 0 = t0 := tdTok_get h0 (by rw [hcache]; rfl)
    have ht1 : tdTok st 1 = t1 := tdTok_get h0 (by rw [hcache]; rfl)
    have ht2 : tdTok st 2 = t2 := tdTok_get h0 (by rw [hcache]; rfl)
    have ht3 : tdTok st 3 = t3 := tdTok_get h0 (by rw [hcache]; rfl)
    simp only [bsEndvalNonArray, specEndvalCreate, htc, h0, hcache, ht0, ht1, ht2,
      ht3, Nat.sub_zero]
    norm_num
    rcases hcr1 : createN d head BS_NODE_INSTANCE (some t0.data) t0.data.length
      none (qnFlag t0 ||| st.flags) with ⟨d1, _ | n1⟩
    · simp [hcr1]
    · rcases hcr2 : createN d1 n1 BS_NODE_BRANCH (some t1.data) t1.data.length
        none (qnFlag t1) with ⟨d2, _ | n2⟩
      · simp [hcr1, hcr2]
      · simp [hcr1, hcr2]
  · have hn : st.tokenCount = rest.length + 5 := by
      rw [h1, hcache]; simp [List.length_cons]
    have ht0 : tdTok st 0 = t0 := tdTok_get h0 (by rw [hcache]; rfl)
    simp only [bsEndvalNonArray, specEndvalCreate, h0, hcache, ht0, Nat.sub_zero]
    rw [if_neg (by omega), if_neg (by omega), if_neg (by omega),
      if_neg (by omega), if_neg (by omega), if_neg (by omega)]
    rcases hcr1 : createN d head BS_NODE_BRANCH (some t0.data) t0.data.length
      none (qnFlag t0 ||| st.flags) with ⟨d1, _ | tmphead⟩
    · simp [hcr1]
    · simp only [hcr1]
      rw [pairLeafLoop_drop st h0 h1 (st.tokenCount + 1) d1 tmphead 1 (by omega)]
      rw [hcache]
      rfl

/-- C5 witness: the refinement half of the theorem applied to a concrete
two-token zero-offset state. -/
theorem c5_endval_offset_witness :
    bsEndvalNonArray (bsCreate [] 0) c5stateW 0 =
      (specEndvalCreate (bsCreate [] 0) 0 c5stateW.flags c5stateW.tokenCache,
       c5stateW) :=
  c5_endval_offset.1 (bsCreate [] 0) c5stateW 0 (by rfl) (by rfl) (by decide)

/-- C6 amended: the `done:` check of `bsParse` compares only the final head
against the root — the node stack is not examined, so `{` alone parses
successfully while leaving the pushed root on the stack; a head stuck below
the root gives the LEVEL error (as for `a {`), and a bare `}` is rejected
earlier by the END_BLOCK handler with a BLOCK error, not LEVEL. -/
theorem c6_termination_amended :
    (∀ (st : BsState) (root : Nat), bsParseFinalize st root root = st) ∧
    (∀ (st : BsState) (head root : Nat), st.parseEvent ≠ BS_ERROR → head ≠ root →
        bsParseFinalize st head root =
          { st with parseEvent := BS_ERROR, parseError := BS_PERROR_LEVEL }) ∧
    (bsParseFull 16 (bsCreate [] 0) [123]).map
        (fun r => (r.2.1.parseError, r.2.2.1, r.2.2.2)) =
      some (BS_PERROR_NONE, 0, [0]) ∧
    (bsParseFull 16 (bsCreate [] 0) [97, 32, 123]).map
        (fun r => (r.2.1.parseError, r.2.2.1)) = some (BS_PERROR_LEVEL, 1) := by
  refine ⟨?_, ?_, by decide, by decide⟩
  · intro st root
    unfold bsParseFinalize
    simp
  · intro st head root h1 h2
    unfold bsParseFinalize
    rw [if_pos ⟨h1, h2⟩]

/-- C6 witness: the LEVEL half of the theorem at a concrete stuck head. -/
theorem c6_termination_amended_witness :
    bsParseFinalize (bsInitState []) 1 0 =
      { bsInitState [] with parseEvent := BS_ERROR,
                            parseError := BS_PERROR_LEVEL } :=
  c6_termination_amended.2.1 (bsInitState []) 1 0 (by decide) (by decide)

/-- C7 amended: the GOT_TOKEN handler raises the TOKENS error when the newly
accepted token is the twentieth (`++tokenCount == BS_MAX_TOKENS`), so only
nineteen consecutive identifiers are held without a terminator and the
twentieth — not the twenty-first — fails in a non-array context; under an
ARRAY head the twentieth token instead flushes the batch into anonymous
leaves and resets the counters, so arrays accept twenty and more. -/
theorem c7_token_limit_amended :
    (∀ (d : BsDict) (st : BsState) (head : Nat) (stack : List Nat) (hn : BsNode),
      st.parseEvent = BS_GOT_TOKEN →
      ¬(st.tokenCount = 0 ∧ st.prev = 58) →
      getNode d head = some hn →
      (st.tokenCount + 1 ≠ BS_MAX_TOKENS →
        bsParseEvent d st head stack =
          (d, { st with tokenCount := st.tokenCount + 1 }, head, stack, false)) ∧
      (st.tokenCount + 1 = BS_MAX_TOKENS → hn.ntype ≠ BS_NODE_ARRAY →
        bsParseEvent d st head stack =
          (d, scanErr { st with tokenCount := st.tokenCount + 1 } BS_PERROR_TOKENS,
           head, stack, false)) ∧
      (st.tokenCount + 1 = BS_MAX_TOKENS → hn.ntype = BS_NODE_ARRAY →
        bsParseEvent d st head stack =
          (arrayFlush d { st with tokenCount := st.tokenCount + 1 } head 0,
           tokenreset { st with tokenCount := st.tokenCount + 1 },
           head, stack, false))) ∧
    (bsParseFull 64 (bsCreate [] 0) c7tokens20).map (fun r => r.2.1.parseError) =
      some BS_PERROR_TOKENS ∧
    (bsParseFull 64 (bsCreate [] 0) c7tokens19).map (fun r => r.2.1.parseError) =
      some BS_PERROR_NONE ∧
    (bsParseFull 64 (bsCreate [] 0) c7array20).bind (fun r =>
        (getNode r.1 1).map (fun n => (r.2.1.parseError, n.ntype, n.childCount))) =
      some (BS_PERROR_NONE, BS_NODE_ARRAY, 20) := by
  refine ⟨?_, by decide, by decide, by decide⟩
  intro d st head stack hn hev hmod hhn
  unfold bsParseEvent
  rw [if_pos hev, if_neg hmod]
  refine ⟨?_, ?_, ?_⟩
  · intro hne
    rw [if_neg (by simpa using hne)]
  · intro heq harr
    rw [if_pos (by simpa using heq), hhn]
    simp [harr]
  · intro heq harr
    rw [if_pos (by simpa using heq), hhn]
    simp [harr]

/-- C7 witness: the non-array error branch of the theorem at a nineteen-token
state over a fresh dictionary. -/
theorem c7_token_limit_amended_witness :
    bsParseEvent (bsCreate [] 0) c7state 0 [] =
      (bsCreate [] 0,
       scanErr { c7state with tokenCount := 20 } BS_PERROR_TOKENS, 0, [], false) :=
  (c7_token_limit_amended.1 (bsCreate [] 0) c7state 0 [] rootNode0
    (by rfl) (by decide) (by rfl)).2.1 (by decide) (by decide)

/-- C8 amended: an array child is named by its ordinal at creation time —
`_bsCreateNode` under an ARRAY parent names the new node
`u32toa(parent->childCount)` regardless of the requested name — and the
naming invariant holds for parse-produced dictionaries; but `bsDeleteNode`
of an array member never renumbers the remaining children, so the invariant
is broken by member deletion. -/
theorem c8_array_naming_amended :
    (∀ (d : BsDict) (parent ntype namelen : Nat) (name value : Option (List Nat))
        (pn : BsNode),
      getNode d parent = some pn → pn.ntype = BS_NODE_ARRAY →
      (bsCreateNodeIn d parent ntype name namelen value).map
          (fun p => (getNode p.1 p.2).map (fun n => n.name)) =
        some (some (u32toa pn.childCount))) ∧
    arrayInvCheck c8dict = true ∧
    (bsParseFull 32 (bsCreate [] 0)
        [97, 114, 114, 32, 91, 32, 49, 32, 50, 32, 51, 32, 93, 59]).map
      (fun r => (r.2.1.parseError, r.1)) = some (BS_PERROR_NONE, c8dict) ∧
    (bsDeleteNode 4 c8dict 2).map (fun p => arrayInvCheck p.1) = some false := by
  refine ⟨?_, by decide, by decide, by decide⟩
  intro d parent ntype namelen name value pn hpn harr
  have hlt : parent < d.nodes.length := getNode_lt hpn
  unfold bsCreateNodeIn
  rw [hpn]
  simp only [harr, if_pos, Option.map_some']
  by_cases hidx : d.flags &&& BS_NOINDEX = 0
  · simp only [hidx, if_pos, getNode, setNode]
    rw [List.get?_set_ne _ _ (by omega)]
    simp [List.get?_concat_length]
  · simp only [hidx, if_neg, getNode, setNode]
    rw [List.get?_set_ne _ _ (by omega)]
    simp [List.get?_concat_length]

/-- C8 witness: the creation half of the theorem on a concrete empty array. -/
theorem c8_array_naming_amended_witness :
    (bsCreateNodeIn c8adict 1 BS_NODE_LEAF none 0 (some [49])).map
        (fun p => (getNode p.1 p.2).map (fun n => n.name)) =
      some (some (u32toa 0)) :=
  c8_array_naming_amended.1 c8adict 1 BS_NODE_LEAF 0 none (some [49]) c8anode
    (by decide) (by decide)

/-- C9 amended: deleting the root is not refused — `bsDeleteNode` on a node
with no parent deletes every child, decrements the node counter and returns
OK, skipping only the unlink-and-free of the node itself; on a childless
root the node survives untouched while the counter still drops, and on the
dictionary parsed from `a b;` the root keeps its slot but loses its child
and the counter reaches zero. -/
theorem c9_delete_root_amended :
    (∀ (f : Nat) (d : BsDict) (i : Nat) (nd : BsNode),
      getNode d i = some nd → nd.parent = none → nd.children = [] →
      (bsDeleteNode (f + 1) d i).map (fun p => (getNode p.1 i, p.1.nodecount, p.2)) =
        some (some nd, d.nodecount - 1, BS_NODE_OK)) ∧
    (bsParseFull 16 (bsCreate [] 0) [97, 32, 98, 59]).bind (fun r =>
      (bsDeleteNode 4 r.1 0).map (fun p =>
        ((getNode p.1 0).map (fun n => (n.name, n.children, n.childCount)),
         (getNode p.1 1).isSome, p.1.nodecount, p.2))) =
      some (some ([], [], 0), false, 0, BS_NODE_OK) := by
  refine ⟨?_, by rfl⟩
  intro f d i nd h1 h2 h3
  have h1' : d.nodes[i]?.getD none = some nd := by
    simpa [getNode] using h1
  by_cases hidx : d.flags &&& BS_NOINDEX = 0 <;>
    simp [bsDeleteNode, h1, h1', h2, h3, hidx, getNode]

/-- C9 witness: the theorem applied to the root of a fresh dictionary. -/
theorem c9_delete_root_amended_witness :
    (bsDeleteNode 1 (bsCreate [] 0) 0).map
        (fun p => (getNode p.1 0, p.1.nodecount, p.2)) =
      some (some rootNode0, 0, BS_NODE_OK) :=
  c9_delete_root_amended.1 0 (bsCreate [] 0) 0 rootNode0
    (by rfl) (by rfl) (by rfl)

end Barser
